import Mathlib

/-!
Shallow embedding of the python-hid-parser repository (src/hid_parser/__init__.py
together with the usage registry in src/hid_parser/data.py), and proofs about the
claims of its specification.

Conventions used throughout:
* Python `int` is modelled as `Int`; byte values are `Nat` (inputs are validated
  to the range 0..255 by `ReportDescriptor.__init__` before any arithmetic).
* Fallible Python code (raise) is modelled with `Except PyErr`.
* `warnings.warn(...)` is modelled by threading an explicit list of structured
  warning values through the computation.
* Python `dict` is modelled as an association list where an update keeps the
  original position of an existing key and appends a fresh key at the end,
  exactly like the insertion-order semantics of Python dictionaries.
-/

namespace HidParser

/-- Python exception classes that can escape from the code under study.
`invalidReportDescriptor` is the library's own exception class; the remaining
constructors are Python builtins raised by the code. -/
inductive PyErr where
  | invalidReportDescriptor (msg : String)
  | notImplementedError (msg : String)
  | valueError (msg : String)
  | typeError (msg : String)
  | keyError (msg : String)
  | attributeError (msg : String)
  | indexError (msg : String)
deriving DecidableEq, Repr

/-- `hid_parser.data.UsageTypes` (src/hid_parser/data.py, class UsageTypes). -/
inductive UsageType where
  | LINEAR_CONTROL
  | ON_OFF_CONTROL
  | MOMENTARY_CONTROL
  | ONE_SHOT_CONTROL
  | RE_TRIGGER_CONTROL
  | SELECTOR
  | STATIC_VALUE
  | STATIC_FLAG
  | DYNAMIC_FLAG
  | DYNAMIC_VALUE
  | NAMED_ARRAY
  | COLLECTION_APPLICATION
  | COLLECTION_LOGICAL
  | COLLECTION_PHYSICAL
  | USAGE_SWITCH
  | USAGE_MODIFIER
deriving DecidableEq, Repr

/-- Usage-type table of the Keyboard/Keypad page (src/hid_parser/data.py, class
KeyboardKeypad, lines 241-461).  This is the only page whose entries carry
usage-type subdata in this repository.  The registered usage ids are
0x00-0x66, 0x68-0xA4 and 0xB0-0xDC with type SELECTOR, and 0xDD and 0xE0-0xE7
with type DYNAMIC_VALUE.  Note 0x67 is absent: the class body assigns the
attribute name KEYPAD_EQUALS twice (0x67 and 0x86), and Python class-dict
semantics keep only the last assignment, so only 0x86 is registered. -/
def kkTypes (usage : Int) : Option (List UsageType) :=
  if (0 ≤ usage ∧ usage ≤ 0x66) ∨ (0x68 ≤ usage ∧ usage ≤ 0xA4)
      ∨ (0xB0 ≤ usage ∧ usage ≤ 0xDC) then
    some [.SELECTOR]
  else if usage = 0xDD ∨ (0xE0 ≤ usage ∧ usage ≤ 0xE7) then
    some [.DYNAMIC_VALUE]
  else
    none

/-- `Usage.usage_types` (src/hid_parser/__init__.py, lines 235-243) collapsed to
its observable behaviour: `some` with the list of usage types when the two-level
registry lookup succeeds, `none` when it raises KeyError or ValueError.

Derivation from src/hid_parser/data.py: `UsagePages` registers subdata tables
only for pages 0x01 (GenericDesktopControls), 0x07 (KeyboardKeypad), 0x08 (Led),
0x09 (Button), 0x0C (Consumer) and 0xF1D0 (FIDO); every other page either has
sub `None` (ValueError) or is absent (KeyError).  Of the registered tables, only
KeyboardKeypad entries carry usage-type subdata (the sole `UsageTypes.` marks in
data.py are at lines 242-460); every entry of the other tables has sub `None`,
so `get_subdata` raises ValueError there, and unknown ids raise KeyError.
Hence the lookup succeeds exactly on page 7 with a KeyboardKeypad id. -/
def usageTypes (page usage : Int) : Option (List UsageType) :=
  if page = 0x07 then kkTypes usage else none

/-- `Usage` (src/hid_parser/__init__.py, lines 189-219): a usage page / usage id
pair.  Equality is by pair, as in `Usage.__eq__`. -/
structure Usage where
  page : Int
  usage : Int
deriving DecidableEq, Repr

/-- Little-endian unsigned interpretation of a byte list,
`int.from_bytes(bs, byteorder='little')`. -/
def leBytes (bs : List Nat) : Nat :=
  bs.foldr (fun b acc => b + 256 * acc) 0

/-- `_data_bit_shift(data, offset, length)` (src/hid_parser/__init__.py, lines
95-132), the bit-slice primitive.

The Python while loop writes each result index exactly once: index
`shifted_offset = k` is written with `i = end_offset - (byte_length - 1 - k)`,
so the loop is rendered as a map over the result indices.  The guard
`i - start_offset >= 0` is kept verbatim; when it fires with `i = 0`, Python
evaluates `data[i - 1]` as `data[-1]`, which is the *last* element of the
buffer, and that wrap-around is modelled explicitly. -/
def data_bit_shift (data : List Nat) (offset length : Nat) :
    Except PyErr (List Nat) :=
  if length = 0 then
    -- Python: `if not length > 0: raise ValueError(...)`
    .error (.valueError "Invalid specified length")
  else
    let left_extra := offset % 8
    let right_extra := 8 - (offset + length) % 8
    let start_offset := offset / 8
    let end_offset := (offset + length - 1) / 8
    let byte_length := (length - 1) / 8 + 1
    if ¬ end_offset < data.length then
      .error (.valueError "Invalid data length")
    else
      let right_extra := if right_extra = 8 then 0 else right_extra
      let shifted :=
        (List.range byte_length).map (fun k =>
          let i := end_offset - (byte_length - 1 - k)
          let b := data.getD i 0 >>> right_extra
          if start_offset ≤ i then
            let prev := if i = 0 then data.getD (data.length - 1) 0
                        else data.getD (i - 1) 0
            b ||| ((prev &&& (0xFF >>> (8 - right_extra))) <<< (8 - right_extra))
          else
            b)
      match shifted with
      | [] => .ok []
      | s0 :: rest =>
          .ok ((s0 &&& (0xFF >>> ((left_extra + right_extra) % 8))) :: rest)

/-! ## Tokenizer -/

/-- `_item_is_signed(tag, typ)` (src/hid_parser/__init__.py, lines 86-92):
only the Global items Logical/Physical Minimum/Maximum and Unit Exponent carry
signed data. -/
def item_is_signed (tag typ : Nat) : Bool :=
  typ == 1 && (tag == 1 || tag == 2 || tag == 3 || tag == 4 || tag == 5)

/-- One `(type, tag, data)` token produced by `ReportDescriptor._iterate_raw`. -/
structure RawItem where
  typ : Nat
  tag : Nat
  data : Option Int
deriving DecidableEq, Repr

/-- `struct.unpack('<b/h/l' or '<B/H/L', bytes)`: little-endian integer of the
given byte list, two's complement when signed. -/
def unpackLE (signed : Bool) (bs : List Nat) : Int :=
  let v : Int := (leBytes bs : Nat)
  if signed ∧ 2 ^ (8 * bs.length - 1) ≤ v then v - 2 ^ (8 * bs.length) else v

/-- `ReportDescriptor._iterate_raw` (src/hid_parser/__init__.py, lines 698-733):
split the descriptor bytes into `(type, tag, data)` tokens.  A size code of 0 on
a Main item yields data 0, on other items no data; size code 3 means four data
bytes.  Truncated data raises InvalidReportDescriptor.

The recursion is driven by a fuel argument so that the definition is
structurally recursive (and therefore computable by kernel reduction); every
iteration consumes at least one byte, so fuel equal to the byte count is always
sufficient and the fuel-exhaustion branch is unreachable (see
`iterate_rawAux_fuel`). -/
def iterate_rawAux : Nat → List Nat → Except PyErr (List RawItem)
  | _, [] => .ok []
  | 0, _ :: _ => .ok []  -- fuel exhausted: unreachable for fuel ≥ length
  | fuel + 1, pfx :: rest =>
    let tag := (pfx &&& 0b11110000) >>> 4
    let typ := (pfx &&& 0b00001100) >>> 2
    let size := pfx &&& 0b00000011
    if size = 0 then
      -- 6.2.2.4 Main items with empty data have a value of zero
      let d : Option Int := if typ = 0 then some 0 else none
      (⟨typ, tag, d⟩ :: ·) <$> iterate_rawAux fuel rest
    else if 3 < size then
      -- unreachable: size = pfx &&& 3 ≤ 3; kept to mirror the source
      .error (.valueError "Invalid item size")
    else
      let size := if size = 3 then 4 else size
      if rest.length < size then
        .error (.invalidReportDescriptor "Invalid size")
      else
        let d := unpackLE (item_is_signed tag typ) (rest.take size)
        (⟨typ, tag, some d⟩ :: ·) <$> iterate_rawAux fuel (rest.drop size)

/-- `_iterate_raw` on a whole byte list. -/
def iterate_raw (data : List Nat) : Except PyErr (List RawItem) :=
  iterate_rawAux data.length data

/-- The fuel argument of `iterate_rawAux` is irrelevant as long as it is at
least the length of the byte list. -/
theorem iterate_rawAux_fuel (n m : Nat) :
    ∀ (l : List Nat), l.length ≤ n → l.length ≤ m →
      iterate_rawAux n l = iterate_rawAux m l := by
  induction n generalizing m with
  | zero =>
      intro l hn _
      cases l with
      | nil => cases m <;> rfl
      | cons a l => simp at hn
  | succ n ih =>
      intro l hn hm
      cases l with
      | nil => cases m <;> rfl
      | cons a l =>
          cases m with
          | zero => simp at hm
          | succ m =>
              simp only [List.length_cons] at hn hm
              have h1 : l.length ≤ n := by omega
              have h2 : l.length ≤ m := by omega
              have hdn : ∀ s : Nat, (l.drop s).length ≤ n := fun s => by
                simp [List.length_drop]; omega
              have hdm : ∀ s : Nat, (l.drop s).length ≤ m := fun s => by
                simp [List.length_drop]; omega
              simp only [iterate_rawAux]
              rw [ih m l h1 h2,
                  ih m (l.drop (if a &&& 3 = 3 then 4 else a &&& 3))
                    (hdn _) (hdm _)]

/-! ## Items and warnings -/

/-- The item hierarchy (PaddingItem / VariableItem / ArrayItem,
src/hid_parser/__init__.py, lines 309-597) as one closed inductive.  The field
order follows the constructors of the source classes. -/
inductive HIDItem where
  | padding (offset size : Int)
  | varItem (offset size : Int) (flags : Int) (usage : Usage)
      (logical_min logical_max : Int) (physical_min physical_max : Option Int)
  | arrItem (offset size count : Int) (flags : Int) (usages : List Usage)
      (logical_min logical_max : Int) (physical_min physical_max : Option Int)
deriving DecidableEq, Repr

/-- `item.size` (BaseItem property). -/
def HIDItem.size : HIDItem → Int
  | .padding _ s => s
  | .varItem _ s _ _ _ _ _ _ => s
  | .arrItem _ s _ _ _ _ _ _ _ => s

/-- `item.offset` (BaseItem property). -/
def HIDItem.offset : HIDItem → Int
  | .padding o _ => o
  | .varItem o _ _ _ _ _ _ _ => o
  | .arrItem o _ _ _ _ _ _ _ _ => o

/-- Structured warning values standing for the `warnings.warn` calls. -/
inductive HWarn where
  /-- HIDComplianceWarning: Expecting N usages but got M
      (`ReportDescriptor._append_items`). -/
  | complianceUsageCount (expected got : Int)
  /-- HIDComplianceWarning: usage has no compatible usage types with a variable
      item (`VariableItem.__init__`). -/
  | complianceVariableUsageTypes (u : Usage)
  /-- HIDComplianceWarning: usage has no compatible usage types with an array
      item (`ArrayItem.__init__`). -/
  | complianceArrayUsageTypes (u : Usage)
  /-- HIDUnsupportedWarning: unit or unit exponent not supported
      (`ReportDescriptor._parse`, Global Unit / Unit Exponent). -/
  | unsupportedUnit
  /-- HIDReportWarning: Overriding usage
      (`ReportDescriptor._parse_report_items`). -/
  | reportOverridingUsage (u : Usage)
deriving DecidableEq, Repr

/-- `VariableItem._INCOMPATIBLE_TYPES` (src/hid_parser/__init__.py, 393-403). -/
def varIncompatibleTypes : List UsageType :=
  [.SELECTOR, .NAMED_ARRAY, .COLLECTION_APPLICATION, .COLLECTION_LOGICAL,
   .COLLECTION_PHYSICAL, .USAGE_SWITCH, .USAGE_MODIFIER]

/-- `ArrayItem._INCOMPATIBLE_TYPES` (src/hid_parser/__init__.py, 482-500). -/
def arrIncompatibleTypes : List UsageType :=
  [.LINEAR_CONTROL, .ON_OFF_CONTROL, .MOMENTARY_CONTROL, .ONE_SHOT_CONTROL,
   .RE_TRIGGER_CONTROL, .STATIC_VALUE, .STATIC_FLAG, .DYNAMIC_VALUE,
   .DYNAMIC_FLAG, .NAMED_ARRAY, .COLLECTION_APPLICATION, .COLLECTION_LOGICAL,
   .COLLECTION_PHYSICAL, .USAGE_SWITCH, .USAGE_MODIFIER]

/-- Compliance check of `VariableItem.__init__` (lines 419-425): warn when the
registry lookup succeeds and every returned type is incompatible; KeyError and
ValueError from the lookup are swallowed.  Python `all` over an empty tuple is
true, and so is `List.all` over `[]`. -/
def variableItemWarnings (u : Usage) : List HWarn :=
  match usageTypes u.page u.usage with
  | none => []
  | some ts =>
      if ts.all (· ∈ varIncompatibleTypes) then [.complianceVariableUsageTypes u]
      else []

/-- `VariableItem(offset, size, flags, usage, ...)` construction; the keyword
arguments `logical_min`/`logical_max` come from the builder's global-state dict,
and Python raises TypeError before the constructor body runs when one of them is
missing. -/
def mkVariableItem (offset size flags : Int) (u : Usage)
    (logical_min logical_max : Option Int) (physical_min physical_max : Option Int) :
    Except PyErr (List HWarn × HIDItem) :=
  match logical_min, logical_max with
  | some lmin, some lmax =>
      .ok (variableItemWarnings u,
           .varItem offset size flags u lmin lmax physical_min physical_max)
  | _, _ => .error (.typeError "missing required argument logical_min or logical_max")

/-- The per-usage loop of `ArrayItem.__init__` (lines 525-535): fail with
ValueError on a usage page mismatch, otherwise collect compliance warnings. -/
def arrayItemUsageWarnings (page0 : Option Int) :
    List Usage → Except PyErr (List HWarn)
  | [] => .ok []
  | u :: rest =>
      if some u.page ≠ page0 then
        .error (.valueError "Mismatching usage page in usage")
      else
        let ws :=
          match usageTypes u.page u.usage with
          | none => []
          | some ts =>
              if ts.all (· ∈ arrIncompatibleTypes) then
                [.complianceArrayUsageTypes u]
              else []
        (ws ++ ·) <$> arrayItemUsageWarnings page0 rest

/-- `ArrayItem(offset, size, count, flags, usages, ...)` construction. -/
def mkArrayItem (offset size count flags : Int) (usages : List Usage)
    (logical_min logical_max : Option Int) (physical_min physical_max : Option Int) :
    Except PyErr (List HWarn × HIDItem) :=
  match logical_min, logical_max with
  | some lmin, some lmax => do
      let page0 := (usages.head?).map Usage.page
      let ws ← arrayItemUsageWarnings page0 usages
      .ok (ws, .arrItem offset size count flags usages lmin lmax
                  physical_min physical_max)
  | _, _ => .error (.typeError "missing required argument logical_min or logical_max")

/-! ## Python-dict association lists -/

section AssocList

variable {α β : Type} [DecidableEq α]

/-- `d[k]` lookup returning an `Option`: first matching key. -/
def aget (l : List (α × β)) (k : α) : Option β :=
  match l with
  | [] => none
  | (k', v) :: rest => if k' = k then some v else aget rest k

/-- `d[k] = v`: replace the value at an existing key in place, or append a new
entry, matching Python dict insertion-order semantics. -/
def aset (l : List (α × β)) (k : α) (v : β) : List (α × β) :=
  match l with
  | [] => [(k, v)]
  | (k', v') :: rest =>
      if k' = k then (k', v) :: rest else (k', v') :: aset rest k v

/-- `d.update(m)`: set every entry of `m`, in order. -/
def aupdate (l m : List (α × β)) : List (α × β) :=
  m.foldl (fun acc kv => aset acc kv.1 kv.2) l

theorem aget_aset_self (l : List (α × β)) (k : α) (v : β) :
    aget (aset l k v) k = some v := by
  induction l with
  | nil => simp [aget, aset]
  | cons hd tl ih =>
      obtain ⟨k', v'⟩ := hd
      by_cases h : k' = k <;> simp [aget, aset, h, ih]

theorem aget_aset_ne (l : List (α × β)) (k k' : α) (v : β) (h : k ≠ k') :
    aget (aset l k v) k' = aget l k' := by
  induction l with
  | nil => simp [aget, aset, h]
  | cons hd tl ih =>
      obtain ⟨k'', v''⟩ := hd
      by_cases h2 : k'' = k
      · simp [aget, aset, h2, h, Ne.symm h]
      · by_cases h3 : k'' = k' <;>
          simp [aget, aset, h2, h3, ih, Ne.symm h]

end AssocList

/-! ## Descriptor builder -/

/-- The global-state dictionary `glob` of `ReportDescriptor._parse`
(src/hid_parser/__init__.py, line 820).  The companion `local` dict at line 821
is never written to by the code, so it is not modelled. -/
structure Glob where
  logical_min : Option Int := none
  logical_max : Option Int := none
  physical_min : Option Int := none
  physical_max : Option Int := none
deriving DecidableEq, Repr

/-- The mutable state of `ReportDescriptor._parse` plus the pools the parse
loop writes into (`self._input`, `self._output`, `self._feature`) and the
warning channel. -/
structure BState where
  offset_input : List (Option Int × Int) := [(none, 0)]
  offset_output : List (Option Int × Int) := [(none, 0)]
  offset_feature : List (Option Int × Int) := [(none, 0)]
  pool_input : List (Option Int × List HIDItem) := []
  pool_output : List (Option Int × List HIDItem) := []
  pool_feature : List (Option Int × List HIDItem) := []
  report_id : Option Int := none
  report_count : Option Int := none
  report_size : Option Int := none
  usage_page : Option Int := none
  usages : List Usage := []
  usage_min : Option Int := none
  glob : Glob := {}
  warnings : List HWarn := []
deriving DecidableEq, Repr

/-- `ReportDescriptor._append_item` (lines 735-746): advance the running offset
of the report id by `item.size` (note: by `size`, not `size * count`, even for
array items) and append the item to the pool. -/
def append_item (offsets : List (Option Int × Int))
    (pool : List (Option Int × List HIDItem)) (report_id : Option Int)
    (item : HIDItem) :
    List (Option Int × Int) × List (Option Int × List HIDItem) :=
  let off := (aget offsets report_id).getD 0
  let offsets := aset offsets report_id (off + item.size)
  match aget pool report_id with
  | some items => (offsets, aset pool report_id (items ++ [item]))
  | none => (offsets, pool ++ [(report_id, [item])])

/-- The padding branch of `_append_items` (lines 768-772): `report_count`
PaddingItems of width `report_size` at consecutive offsets. -/
def append_paddings (offsets : List (Option Int × Int))
    (pool : List (Option Int × List HIDItem)) (report_id : Option Int)
    (report_size : Int) :
    Nat → List (Option Int × Int) × List (Option Int × List HIDItem)
  | 0 => (offsets, pool)
  | n + 1 =>
      let off := (aget offsets report_id).getD 0
      let (offsets, pool) :=
        append_item offsets pool report_id (.padding off report_size)
      append_paddings offsets pool report_id report_size n

/-- The per-usage loop of the variable branch of `_append_items` (794-802). -/
def append_variables (offsets : List (Option Int × Int))
    (pool : List (Option Int × List HIDItem)) (warns : List HWarn)
    (report_id : Option Int) (report_size flags : Int) (glob : Glob) :
    List Usage →
    Except PyErr
      (List (Option Int × Int) × List (Option Int × List HIDItem) × List HWarn)
  | [] => .ok (offsets, pool, warns)
  | u :: rest => do
      let off := (aget offsets report_id).getD 0
      let (ws, item) ← mkVariableItem off report_size flags u
        glob.logical_min glob.logical_max glob.physical_min glob.physical_max
      let (offsets, pool) := append_item offsets pool report_id item
      append_variables offsets pool (warns ++ ws) report_id report_size flags
        glob rest

/-- `ReportDescriptor._append_items` (lines 748-802), the field-construction
algorithm.  No usages: `report_count` PaddingItems.  Array-encoding flag (bit 1
clear): one ArrayItem holding all usages.  Variable encoding: when
`len(usages) != report_count` warn once; when usages exceed the count the count
is grown (which does not change the iteration), and when usages fall short the
source executes `usages += [] * missing_usage_count`, which appends nothing; in
both cases one VariableItem is then emitted per usage. -/
def append_items (offsets : List (Option Int × Int))
    (pool : List (Option Int × List HIDItem)) (warns : List HWarn)
    (report_id : Option Int) (report_count report_size : Int)
    (usages : List Usage) (flags : Int) (glob : Glob) :
    Except PyErr
      (List (Option Int × Int) × List (Option Int × List HIDItem) × List HWarn) :=
  if usages = [] then
    let (offsets, pool) :=
      append_paddings offsets pool report_id report_size report_count.toNat
    .ok (offsets, pool, warns)
  else if Int.land flags 2 = 0 then do
    -- is_array
    let off := (aget offsets report_id).getD 0
    let (ws, item) ← mkArrayItem off report_size report_count flags usages
      glob.logical_min glob.logical_max glob.physical_min glob.physical_max
    let (offsets, pool) := append_item offsets pool report_id item
    .ok (offsets, pool, warns ++ ws)
  else
    let warns :=
      if (usages.length : Int) ≠ report_count then
        warns ++ [.complianceUsageCount report_count usages.length]
      else warns
    append_variables offsets pool warns report_id report_size flags glob usages

/-- Python truthiness of the builder's `report_id` variable: `not report_id` is
true for `None` and for the report id 0. -/
def pyNotTruthy : Option Int → Bool
  | none => true
  | some v => v == 0

/-- `self._input or self._output or self._feature`: some direction already has
pooled items. -/
def poolsNonempty (st : BState) : Bool :=
  !st.pool_input.isEmpty || !st.pool_output.isEmpty || !st.pool_feature.isEmpty

/-- Python `range(m, M + 1)` as a list of integers. -/
def intRange (m M : Int) : List Int :=
  (List.range (M + 1 - m).toNat).map (fun (k : Nat) => m + (k : Int))

/-- The Usage Maximum expansion loop (lines 950-951):
`for i in range(usage_min, data + 1): usages.append(Usage(usage_page, i))`.
When the range is non-empty and no usage page is set, the first constructed
`Usage(None, i)` raises ValueError. -/
def expandUsageRange (page : Option Int) (m M : Int) :
    Except PyErr (List Usage) :=
  if (M + 1 - m).toNat = 0 then .ok []  -- empty range: the loop does not run
  else
    match page with
    | none => .error (.valueError "No usage specified")
    | some p => .ok ((intRange m M).map (fun i => ⟨p, i⟩))

/-- The Input/Output/Feature dispatch of the Main-item section of
`ReportDescriptor._parse` (lines 829-887), after the Collection handling has
already reset the usage list.  After appending, the local state is cleared:
`usages = []`, `usage_min = None`. -/
def parseMainEmit (st : BState) (tag : Nat) (d : Option Int) :
    Except PyErr BState :=
  if ¬ (tag = 0b1000 ∨ tag = 0b1001 ∨ tag = 0b1011) then
    .ok st  -- we only care about input, output and features
  else
    match st.report_count with
    | none => .error (.invalidReportDescriptor
        "Trying to append an item but no report count given")
    | some report_count =>
    match st.report_size with
    | none => .error (.invalidReportDescriptor
        "Trying to append an item but no report size given")
    | some report_size =>
    match d with
    | none => .error (.invalidReportDescriptor "Invalid main item")
      -- unreachable: main items always carry data (size 0 yields data 0)
    | some flags =>
      if tag = 0b1000 then do
        let (offs, pool, warns) ← append_items st.offset_input st.pool_input
          st.warnings st.report_id report_count report_size st.usages flags
          st.glob
        .ok { st with offset_input := offs, pool_input := pool,
                      warnings := warns, usages := [], usage_min := none }
      else if tag = 0b1001 then do
        let (offs, pool, warns) ← append_items st.offset_output st.pool_output
          st.warnings st.report_id report_count report_size st.usages flags
          st.glob
        .ok { st with offset_output := offs, pool_output := pool,
                      warnings := warns, usages := [], usage_min := none }
      else do
        let (offs, pool, warns) ← append_items st.offset_feature
          st.pool_feature st.warnings st.report_id report_count report_size
          st.usages flags st.glob
        .ok { st with offset_feature := offs, pool_feature := pool,
                      warnings := warns, usages := [], usage_min := none }

/-- The Main-item section of `_parse` (lines 824-889): Collection and End
Collection reset the usage list, then Input/Output/Feature are handled. -/
def parseMainStep (st : BState) (tag : Nat) (d : Option Int) :
    Except PyErr BState :=
  parseMainEmit
    (if tag = 0b1010 ∨ tag = 0b1100 then { st with usages := [] } else st)
    tag d

/-- The Global-item section of `_parse` (lines 891-931). -/
def parseGlobalStep (st : BState) (it : RawItem) : Except PyErr BState :=
  if it.tag = 0b0000 then .ok { st with usage_page := it.data }
  else if it.tag = 0b0001 then
    .ok { st with glob := { st.glob with logical_min := it.data } }
  else if it.tag = 0b0010 then
    .ok { st with glob := { st.glob with logical_max := it.data } }
  else if it.tag = 0b0011 then
    .ok { st with glob := { st.glob with physical_min := it.data } }
  else if it.tag = 0b0100 then
    .ok { st with glob := { st.glob with physical_max := it.data } }
  else if it.tag = 0b0111 then .ok { st with report_size := it.data }
  else if it.tag = 0b1000 then
    -- Report ID
    if pyNotTruthy st.report_id && poolsNonempty st then
      .error (.invalidReportDescriptor
        "Tried to set a report ID in a report that does not use them")
    else
      let rid := it.data
      let init := fun (l : List (Option Int × Int)) =>
        if (aget l rid).isSome then l else aset l rid 0
      .ok { st with report_id := rid,
                    offset_input := init st.offset_input,
                    offset_output := init st.offset_output,
                    offset_feature := init st.offset_feature }
  else if it.tag = 0b0110 ∨ it.tag = 0b0101 then
    -- Unit / Unit Exponent
    .ok { st with warnings := st.warnings ++ [.unsupportedUnit] }
  else if it.tag = 0b1001 then .ok { st with report_count := it.data }
  else .error (.notImplementedError "Unsupported global tag")

/-- The Local-item section of `_parse` (lines 933-963). -/
def parseLocalStep (st : BState) (it : RawItem) : Except PyErr BState :=
  if it.tag = 0b0000 then
    match st.usage_page with
    | none => .error (.invalidReportDescriptor
        "Usage field found but no usage page")
    | some p =>
      match it.data with
      | none => .error (.valueError "No usage specified")
        -- Usage(usage_page, None) raises in Usage.__init__
      | some d => .ok { st with usages := st.usages ++ [⟨p, d⟩] }
  else if it.tag = 0b0001 then .ok { st with usage_min := it.data }
  else if it.tag = 0b0010 then
    match st.usage_min with
    | none => .error (.invalidReportDescriptor
        "Usage maximum set but no usage minimum")
    | some m =>
      match it.data with
      | none => .error (.invalidReportDescriptor "Invalid usage maximum value")
      | some M => do
          let expanded ← expandUsageRange st.usage_page m M
          .ok { st with usages := st.usages ++ expanded, usage_min := none }
  else if it.tag = 0b0111 ∨ it.tag = 0b1000 ∨ it.tag = 0b1001 then
    .ok st  -- String Index / Minimum / Maximum: ignored
  else .error (.notImplementedError "Unsupported local tag")

/-- One iteration of the token loop of `ReportDescriptor._parse`
(src/hid_parser/__init__.py, lines 823-963), dispatching on the item type.
Item type 0b11 has no branch in the source: the token is skipped. -/
def parseStep (st : BState) (it : RawItem) : Except PyErr BState :=
  if it.typ = 0 then parseMainStep st it.tag it.data
  else if it.typ = 1 then parseGlobalStep st it
  else if it.typ = 2 then parseLocalStep st it
  else .ok st

/-- The fused tokenizer-and-parse loop: `_parse` iterates the lazy generator
`_iterate_raw`, so tokens are decoded and consumed one at a time and a
tokenizer failure only surfaces once the loop reaches it.  As in
`iterate_rawAux`, a fuel argument keeps the recursion structural; every
iteration consumes at least one byte, so fuel equal to the byte count is
sufficient and the exhaustion branch is unreachable (`runParseAux_fuel`). -/
def runParseAux : Nat → BState → List Nat → Except PyErr BState
  | _, st, [] => .ok st
  | 0, st, _ :: _ => .ok st  -- fuel exhausted: unreachable for fuel ≥ length
  | fuel + 1, st, pfx :: rest =>
    let tag := (pfx &&& 0b11110000) >>> 4
    let typ := (pfx &&& 0b00001100) >>> 2
    let size := pfx &&& 0b00000011
    if size = 0 then do
      let st ← parseStep st ⟨typ, tag, if typ = 0 then some 0 else none⟩
      runParseAux fuel st rest
    else if 3 < size then
      .error (.valueError "Invalid item size")
    else
      let size := if size = 3 then 4 else size
      if rest.length < size then
        .error (.invalidReportDescriptor "Invalid size")
      else do
        let st ← parseStep st
          ⟨typ, tag, some (unpackLE (item_is_signed tag typ) (rest.take size))⟩
        runParseAux fuel st (rest.drop size)

/-- The parse loop on a whole byte list. -/
def runParse (st : BState) (data : List Nat) : Except PyErr BState :=
  runParseAux data.length st data

/-- The fuel argument of `runParseAux` is irrelevant as long as it is at least
the length of the byte list. -/
theorem runParseAux_fuel (n m : Nat) :
    ∀ (st : BState) (l : List Nat), l.length ≤ n → l.length ≤ m →
      runParseAux n st l = runParseAux m st l := by
  induction n generalizing m with
  | zero =>
      intro st l hn _
      cases l with
      | nil => cases m <;> rfl
      | cons a l => simp at hn
  | succ n ih =>
      intro st l hn hm
      cases l with
      | nil => cases m <;> rfl
      | cons a l =>
          cases m with
          | zero => simp at hm
          | succ m =>
              simp only [List.length_cons] at hn hm
              have h1 : l.length ≤ n := by omega
              have h2 : l.length ≤ m := by omega
              have hdn : ∀ s : Nat, (l.drop s).length ≤ n := fun s => by
                simp [List.length_drop]; omega
              have hdm : ∀ s : Nat, (l.drop s).length ≤ m := fun s => by
                simp [List.length_drop]; omega
              have e1 : (fun st' => runParseAux n st' l) =
                  (fun st' => runParseAux m st' l) :=
                funext fun st' => ih m st' l h1 h2
              have e2 : (fun st' => runParseAux n st'
                    (l.drop (if a &&& 3 = 3 then 4 else a &&& 3))) =
                  (fun st' => runParseAux m st'
                    (l.drop (if a &&& 3 = 3 then 4 else a &&& 3))) :=
                funext fun st' => ih m st' _ (hdn _) (hdm _)
              simp only [runParseAux, bind, Except.bind]
              rw [e1, e2]

/-- `ReportDescriptor.__init__` (lines 608-620): validate that every element is
a byte, then run the parse loop from the initial state.  The result carries the
three item pools and the collected warnings. -/
def reportDescriptor (data : List Int) : Except PyErr BState :=
  if data.any (fun b => b < 0 ∨ 255 < b) then
    .error (.invalidReportDescriptor
      "A report descriptor should be represented by a list of bytes")
  else
    runParse {} (data.map Int.toNat)

/-- `ReportDescriptor._get_report_size` (lines 638-645): total bit width, where
an ArrayItem counts `size * count` and every other item counts `size`. -/
def get_report_size (items : List HIDItem) : Int :=
  items.foldl
    (fun acc item =>
      match item with
      | .arrItem _ size count _ _ _ _ _ _ => acc + size * count
      | _ => acc + item.size)
    0

/-- `ReportDescriptor.get_input_items(report_id)`. -/
def get_input_items (st : BState) (report_id : Option Int) :
    Option (List HIDItem) :=
  aget st.pool_input report_id

/-! ## Report decoder -/

/-- The payload of a decoded value: `UsageValue` holds a bool or an int,
`VendorUsageValue` holds a list of raw integers. -/
inductive HPayload where
  | bool (b : Bool)
  | int (n : Int)
  | vendorList (l : List Int)
deriving DecidableEq, Repr

/-- A decoded `UsageValue`: the emitting item together with the value, so that
flag properties (constant, relative, ...) remain observable. -/
structure UsageVal where
  item : HIDItem
  val : HPayload
deriving DecidableEq, Repr

/-- `VariableItem.parse(data)` (src/hid_parser/__init__.py, lines 430-448),
given the fields of the variable item.  The branch structure follows the
source: the usage-type lookup runs first (KeyError/ValueError propagate); if
LINEAR_CONTROL is among the types the value is the little-endian integer;
otherwise the `any(usage_type in hid_parser.data.UsageTypesData ...)` generator
evaluates `hid_parser.data.UsageTypesData`, a name that exists nowhere in
data.py, so a non-empty type list raises AttributeError; only an empty type
list (which the registry never produces) would fall through to the boolean
branches. -/
def variable_item_parse (offset size flags : Int) (u : Usage)
    (logical_min logical_max : Int) (item : HIDItem) (payload : List Nat) :
    Except PyErr UsageVal := do
  let sliced ← data_bit_shift payload offset.toNat size.toNat
  match usageTypes u.page u.usage with
  | none => .error (.valueError "Sub-data not available")
    -- KeyError with a different message when the id is unknown; same flow
  | some ts =>
      if .LINEAR_CONTROL ∈ ts then
        .ok ⟨item, .int (leBytes sliced)⟩
      else if ts ≠ [] then
        .error (.attributeError
          "module hid_parser.data has no attribute UsageTypesData")
      else if .ON_OFF_CONTROL ∈ ts ∧ Int.land flags 32 = 0
          ∧ logical_min = -1 ∧ logical_max = 1 then
        .ok ⟨item, .bool (leBytes sliced == 1)⟩
      else
        .ok ⟨item, .bool (leBytes sliced != 0)⟩

/-- `ArrayItem._IGNORE_USAGE_VALUES` materialized by its constructor
(lines 501-506, 537-540): the single ignored usage
(KEYBOARD_KEYPAD_PAGE, KeyboardKeypad.NO_EVENT) = (0x07, 0x00). -/
def ignoreUsages : List Usage := [⟨0x07, 0x00⟩]

/-- The test `usage.page in hid_parser.data.UsagePages.VENDOR_PAGE`
(line 572).  `VENDOR_PAGE` is declared as a range in the class body of
`UsagePages`, and `_DataMeta` registers ranges without replacing the class
attribute, so the attribute is still the raw tuple
`(0xFF00, Ellipsis, 0xFFFF, 'Vendor Page', None)`; integer membership in that
tuple holds only for the two endpoints 0xFF00 and 0xFFFF, not for the pages in
between. -/
def vendorPageTest (page : Int) : Bool :=
  page == 0xFF00 || page == 0xFFFF

/-- The slot loop of `ArrayItem.parse(data)` (lines 561-588), iterating over
the given slot indices with the accumulated `usage_values` dict. -/
def array_parse_slots (page0 : Option Int) (offset size : Int)
    (usages : List Usage) (item : HIDItem) (payload : List Nat) :
    List Nat → List (Usage × UsageVal) →
    Except PyErr (List (Usage × UsageVal))
  | [], acc => .ok acc
  | i :: rest, acc => do
      let aligned ← data_bit_shift payload (offset + 8 * (i : Int)).toNat
        size.toNat
      match page0 with
      | none => .error (.valueError "No usage specified")
        -- Usage(None, value) raises in Usage.__init__
      | some p =>
        let v : Int := leBytes aligned
        let u : Usage := ⟨p, v⟩
        if u ∈ ignoreUsages then
          array_parse_slots page0 offset size usages item payload rest acc
        else if vendorPageTest u.page then
          -- vendor usages: accumulate the raw value list; the first non-zero
          -- value is recorded twice (once by the VendorUsageValue constructor,
          -- once by the unconditional append)
          match aget acc u with
          | none =>
              let init := if v ≠ 0 then [v] else []
              array_parse_slots page0 offset size usages item payload rest
                (aset acc u ⟨item, .vendorList (init ++ [v])⟩)
          | some w =>
              match w.val with
              | .vendorList l =>
                  array_parse_slots page0 offset size usages item payload rest
                    (aset acc u ⟨w.item, .vendorList (l ++ [v])⟩)
              | _ => .error (.attributeError
                  "UsageValue object has no attribute list")
        else
          if u ∈ usages then
            match usageTypes u.page u.usage with
            | none => .error (.valueError "Sub-data not available")
            | some ts =>
                if ts.all (· ∉ arrIncompatibleTypes) then
                  array_parse_slots page0 offset size usages item payload rest
                    (aset acc u ⟨item, .bool true⟩)
                else
                  array_parse_slots page0 offset size usages item payload rest
                    acc
          else
            array_parse_slots page0 offset size usages item payload rest acc

/-- `ArrayItem.parse(data)`: iterate the `count` byte-aligned slots. -/
def array_item_parse (offset size count : Int) (usages : List Usage)
    (item : HIDItem) (payload : List Nat) :
    Except PyErr (List (Usage × UsageVal)) :=
  array_parse_slots ((usages.head?).map Usage.page) offset size usages item
    payload (List.range count.toNat) []

/-- The contribution of one item to a decoded report: a VariableItem writes its
one usage, an ArrayItem the result of its slot loop, a PaddingItem nothing. -/
def itemContrib (item : HIDItem) (payload : List Nat) :
    Except PyErr (List (Usage × UsageVal)) :=
  match item with
  | .padding _ _ => .ok []
  | .varItem o s f u lmin lmax _ _ => do
      let v ← variable_item_parse o s f u lmin lmax item payload
      .ok [(u, v)]
  | .arrItem o s c _ us _ _ _ _ => array_item_parse o s c us item payload

/-- `ReportDescriptor._parse_report_items(items, data)` (lines 665-681): fold
the items in declaration order into the result dict, warning when an ArrayItem
contributes a usage already present (VariableItem assignments overwrite
silently). -/
def parse_report_items (items : List HIDItem) (payload : List Nat) :
    Except PyErr (List (Usage × UsageVal) × List HWarn) :=
  parseReportItemsAux items payload [] []
where
  parseReportItemsAux : List HIDItem → List Nat → List (Usage × UsageVal) →
      List HWarn → Except PyErr (List (Usage × UsageVal) × List HWarn)
  | [], _, parsed, warns => .ok (parsed, warns)
  | item :: rest, payload, parsed, warns =>
    match item with
    | .padding _ _ => parseReportItemsAux rest payload parsed warns
    | .varItem o s f u lmin lmax pmin pmax => do
        let v ← variable_item_parse o s f u lmin lmax
          (.varItem o s f u lmin lmax pmin pmax) payload
        parseReportItemsAux rest payload (aset parsed u v) warns
    | .arrItem o s c fl us lmin lmax pmin pmax => do
        let m ← array_item_parse o s c us
          (.arrItem o s c fl us lmin lmax pmin pmax) payload
        let warns := warns ++
          (m.filter (fun kv => (aget parsed kv.1).isSome)).map
            (fun kv => .reportOverridingUsage kv.1)
        parseReportItemsAux rest payload (aupdate parsed m) warns

/-- `ReportDescriptor._parse_report(item_poll, data)` (lines 683-687): an
unnumbered pool decodes the payload directly; otherwise the first payload byte
selects the report id and the rest is decoded against that pool entry. -/
def parse_report (pool : List (Option Int × List HIDItem))
    (payload : List Nat) :
    Except PyErr (List (Usage × UsageVal) × List HWarn) :=
  match aget pool none with
  | some items => parse_report_items items payload
  | none =>
    match payload with
    | [] => .error (.indexError "list index out of range")
    | b :: rest =>
      match aget pool (some (b : Int)) with
      | none => .error (.keyError "report id not found")
      | some items => parse_report_items items rest

/-- `ReportDescriptor.parse_input_report(data)`. -/
def parse_input_report (st : BState) (payload : List Nat) :
    Except PyErr (List (Usage × UsageVal) × List HWarn) :=
  parse_report st.pool_input payload

/-! ## Error classification -/

/-- The Python exception class of an error value, forgetting the message. -/
inductive PyClass where
  | invalidReportDescriptor
  | notImplementedError
  | valueError
  | typeError
  | keyError
  | attributeError
  | indexError
deriving DecidableEq, Repr

/-- Class of a `PyErr`. -/
def PyErr.cls : PyErr → PyClass
  | .invalidReportDescriptor _ => .invalidReportDescriptor
  | .notImplementedError _ => .notImplementedError
  | .valueError _ => .valueError
  | .typeError _ => .typeError
  | .keyError _ => .keyError
  | .attributeError _ => .attributeError
  | .indexError _ => .indexError

/-- Exception class of a computation result: `none` on success. -/
def resultClass {α : Type} (r : Except PyErr α) : Option PyClass :=
  match r with
  | .ok _ => none
  | .error e => some e.cls

/-- The exception classes that construction (`ReportDescriptor.__init__`) can
produce: its own InvalidReportDescriptor plus the Python builtins
NotImplementedError, ValueError and TypeError. -/
def constructionErrCls (e : PyErr) : Prop :=
  e.cls = .invalidReportDescriptor ∨ e.cls = .notImplementedError ∨
    e.cls = .valueError ∨ e.cls = .typeError

theorem mkVariableItem_err {o s f : Int} {u : Usage} {lmin lmax pmin pmax}
    {e : PyErr} (h : mkVariableItem o s f u lmin lmax pmin pmax = .error e) :
    constructionErrCls e := by
  unfold mkVariableItem at h
  split at h
  · exact absurd h (by simp)
  · injection h with h
    subst h
    simp [constructionErrCls, PyErr.cls]

theorem arrayItemUsageWarnings_err {page0 : Option Int} {e : PyErr} :
    ∀ {us : List Usage}, arrayItemUsageWarnings page0 us = .error e →
      constructionErrCls e := by
  intro us
  induction us with
  | nil => intro h; simp [arrayItemUsageWarnings] at h
  | cons u rest ih =>
      intro h
      unfold arrayItemUsageWarnings at h
      split at h
      · simp only [Except.error.injEq] at h
        subst h
        simp [constructionErrCls, PyErr.cls]
      · cases hr : arrayItemUsageWarnings page0 rest with
        | ok ws => simp [hr, Except.map] at h
        | error e' =>
            rw [hr] at h
            simp only [Except.map_error, Except.error.injEq] at h
            subst h
            exact ih hr

theorem mkArrayItem_err {o s c f : Int} {us : List Usage}
    {lmin lmax pmin pmax} {e : PyErr}
    (h : mkArrayItem o s c f us lmin lmax pmin pmax = .error e) :
    constructionErrCls e := by
  unfold mkArrayItem at h
  split at h
  case h_1 =>
    simp only [bind, Except.bind] at h
    cases hw : arrayItemUsageWarnings ((us.head?).map Usage.page) us with
    | ok ws => rw [hw] at h; simp at h
    | error e' =>
        rw [hw] at h
        injection h with h
        subst h
        exact arrayItemUsageWarnings_err hw
  case h_2 =>
    injection h with h
    subst h
    simp [constructionErrCls, PyErr.cls]

theorem append_variables_err {rid : Option Int} {size flags : Int}
    {glob : Glob} {e : PyErr} :
    ∀ {us : List Usage} {offsets pool warns},
      append_variables offsets pool warns rid size flags glob us = .error e →
      constructionErrCls e := by
  intro us
  induction us with
  | nil => intro _ _ _ h; simp [append_variables] at h
  | cons u rest ih =>
      intro offsets pool warns h
      unfold append_variables at h
      simp only [bind, Except.bind] at h
      cases hm : mkVariableItem ((aget offsets rid).getD 0) size flags u
          glob.logical_min glob.logical_max glob.physical_min
          glob.physical_max with
      | error e' =>
          rw [hm] at h
          simp only [Except.error.injEq] at h
          subst h
          exact mkVariableItem_err hm
      | ok wi =>
          rw [hm] at h
          exact ih h

theorem append_items_err {offsets pool warns rid}
    {report_count report_size : Int} {usages : List Usage} {flags : Int}
    {glob : Glob} {e : PyErr}
    (h : append_items offsets pool warns rid report_count report_size usages
      flags glob = .error e) :
    constructionErrCls e := by
  unfold append_items at h
  split at h
  · simp at h
  · split at h
    · simp only [bind, Except.bind] at h
      cases hm : mkArrayItem ((aget offsets rid).getD 0) report_size
          report_count flags usages glob.logical_min glob.logical_max
          glob.physical_min glob.physical_max with
      | error e' =>
          rw [hm] at h
          simp only [Except.error.injEq] at h
          subst h
          exact mkArrayItem_err hm
      | ok wi => rw [hm] at h; simp at h
    · exact append_variables_err h

theorem expandUsageRange_err {page : Option Int} {m M : Int} {e : PyErr}
    (h : expandUsageRange page m M = .error e) : constructionErrCls e := by
  unfold expandUsageRange at h
  split at h
  · simp at h
  · cases page with
    | none =>
        injection h with h
        subst h
        simp [constructionErrCls, PyErr.cls]
    | some p => simp at h

theorem except_bind_err {α β : Type} {x : Except PyErr α}
    {f : α → Except PyErr β} {e : PyErr} (h : (x >>= f) = .error e) :
    x = .error e ∨ ∃ a, x = .ok a ∧ f a = .error e := by
  cases x with
  | ok a => exact Or.inr ⟨a, rfl, h⟩
  | error e' => simp_all [bind, Except.bind]

theorem parseMainEmit_err {st : BState} {tag : Nat} {d : Option Int}
    {e : PyErr} (h : parseMainEmit st tag d = .error e) :
    constructionErrCls e := by
  unfold parseMainEmit at h
  repeat' split at h
  all_goals
    first
    | exact Except.noConfusion h
    | (injection h with h; subst h; simp [constructionErrCls, PyErr.cls])
    | (rcases except_bind_err h with h' | ⟨a, ha, hf⟩
       · exact append_items_err h'
       · obtain ⟨a1, a2, a3⟩ := a; simp at hf)

theorem parseMainStep_err {st : BState} {tag : Nat} {d : Option Int}
    {e : PyErr} (h : parseMainStep st tag d = .error e) :
    constructionErrCls e :=
  parseMainEmit_err h

theorem parseGlobalStep_err {st : BState} {it : RawItem} {e : PyErr}
    (h : parseGlobalStep st it = .error e) : constructionErrCls e := by
  unfold parseGlobalStep at h
  repeat' split at h
  all_goals
    first
    | exact Except.noConfusion h
    | (injection h with h; subst h; simp [constructionErrCls, PyErr.cls])

theorem parseLocalStep_err {st : BState} {it : RawItem} {e : PyErr}
    (h : parseLocalStep st it = .error e) : constructionErrCls e := by
  unfold parseLocalStep at h
  repeat' split at h
  all_goals
    first
    | exact Except.noConfusion h
    | (injection h with h; subst h; simp [constructionErrCls, PyErr.cls])
    | (rcases except_bind_err h with h' | ⟨a, ha, hf⟩
       · exact expandUsageRange_err h'
       · simp at hf)

theorem parseStep_err {st : BState} {it : RawItem} {e : PyErr}
    (h : parseStep st it = .error e) : constructionErrCls e := by
  unfold parseStep at h
  repeat' split at h
  all_goals
    first
    | exact parseMainStep_err h
    | exact parseGlobalStep_err h
    | exact parseLocalStep_err h
    | exact Except.noConfusion h

theorem runParseAux_err {e : PyErr} :
    ∀ {n : Nat} {st : BState} {l : List Nat},
      runParseAux n st l = .error e → constructionErrCls e := by
  intro n
  induction n with
  | zero =>
      intro st l h
      cases l <;> simp [runParseAux] at h
  | succ n ih =>
      intro st l h
      cases l with
      | nil => simp [runParseAux] at h
      | cons a l =>
          unfold runParseAux at h
          simp only [] at h
          repeat' split at h
          all_goals
            first
            | exact Except.noConfusion h
            | (injection h with h; subst h;
               simp [constructionErrCls, PyErr.cls])
            | (rcases except_bind_err h with h' | ⟨a, ha, hf⟩
               · exact parseStep_err h'
               · exact ih hf)

/-- Construction failures carry one of the four exception classes actually
raised by `ReportDescriptor.__init__` and `_parse`. -/
theorem reportDescriptor_err {data : List Int} {e : PyErr}
    (h : reportDescriptor data = .error e) : constructionErrCls e := by
  unfold reportDescriptor at h
  split at h
  · injection h with h
    subst h
    simp [constructionErrCls, PyErr.cls]
  · exact runParseAux_err h

/-! ## Concrete descriptors used by the claims -/

/-- The simple mouse report descriptor of claim C2 (also
`simple_mouse_rdesc` in src/tests/test_parse.py): three 1-bit button
variables, 5 bits of constant padding, and 8-bit X and Y variables with
logical range -127..127, in one unnumbered input report. -/
def simpleMouseRdesc : List Int :=
  [0x05, 0x01, 0x09, 0x02, 0xa1, 0x01, 0x09, 0x02, 0xa1, 0x02, 0x09, 0x01,
   0xa1, 0x00, 0x05, 0x09, 0x19, 0x01, 0x29, 0x03, 0x15, 0x00, 0x25, 0x01,
   0x75, 0x01, 0x95, 0x03, 0x81, 0x02, 0x75, 0x05, 0x95, 0x01, 0x81, 0x03,
   0x05, 0x01, 0x09, 0x30, 0x09, 0x31, 0x15, 0x81, 0x25, 0x7f, 0x75, 0x08,
   0x95, 0x02, 0x81, 0x06, 0xc0, 0xc0, 0xc0]

/-- Descriptor for claim C3: a Keyboard/Keypad array of 2 slots of 8 bits
(Usage Page 7, Usage 4, Logical 0..0x65, Report Size 8, Report Count 2,
Input (Data,Arr,Abs)) followed by one constant 8-bit padding field
(Report Count 1, Input (Cnst,Arr,Abs) with no usages). -/
def c3Rdesc : List Int :=
  [0x05, 0x07, 0x09, 0x04, 0x15, 0x00, 0x25, 0x65, 0x75, 0x08, 0x95, 0x02,
   0x81, 0x00, 0x95, 0x01, 0x81, 0x01]

/-- Descriptor for claim C4: Generic Desktop X and Y (2 usages), Logical
0..1, Report Size 8, Report Count 3, Input (Data,Var,Abs). -/
def c4Rdesc : List Int :=
  [0x05, 0x01, 0x09, 0x30, 0x09, 0x31, 0x15, 0x00, 0x25, 0x01, 0x75, 0x08,
   0x95, 0x03, 0x81, 0x02]

/-- Descriptor for claim C7: Report Size 1, Report Count 1, Report ID 5,
Input; then a zero-sized Report ID item (prefix 0x84, no data bytes), and a
second Input.  The zero-sized Report ID resets the current id to `None`. -/
def c7Rdesc : List Int :=
  [0x75, 0x01, 0x95, 0x01, 0x85, 0x05, 0x81, 0x02, 0x84, 0x81, 0x02]

/-- Descriptor for claim C8: Usage Page 1, Usage Minimum 0, then a 4-byte
Usage Maximum 0x0000FFFF, declaring the full 0..0xFFFF usage span
(65536 usages). -/
def c8Rdesc : List Int :=
  [0x05, 0x01, 0x19, 0x00, 0x2B, 0xFF, 0xFF, 0x00, 0x00]

/-! ## Claim C1 -/

/-- Claim C1 (code_bug): the claim states that the bit-slice primitive
returns, for all in-bounds arguments, the little-endian bytes of
`(LE(buf) >>> offset) % 2 ^ length`.  Evaluating the code at buffer `[1]`,
offset 0, length 1 refutes this: the spec formula gives 1 (the least
significant bit of the buffer), but `_data_bit_shift` extracts the bit run
most-significant-bit first and returns `[0]`.  (For this input the loop also
reads `data[i - 1]` with `i = 0`, i.e. Python `data[-1]`, and masks the
wrapped-around byte away.) -/
theorem c1_data_bit_shift_code_bug :
    data_bit_shift [1] 0 1 = .ok [0] ∧
    (leBytes [1] >>> 0) % 2 ^ 1 = 1 ∧
    leBytes [0] ≠ 1 := by
  refine ⟨by rfl, by rfl, by decide⟩

/-! ## Claim C2 -/

/-- Claim C2 (code_bug): the simple mouse descriptor does construct and does
report an input report size of 24 bits, but
`parse_input_report([0b00000101, 10, 251])` does not return the claimed
mapping: it raises ValueError, because the first decoded item is the Button 1
VariableItem and `Usage.usage_types` fails on the Button page (no usage-type
subdata exists in data.py, contradicting the expectations of
src/tests/test_usage.py::test_usage_types). -/
theorem c2_parse_input_report_code_bug :
    (reportDescriptor simpleMouseRdesc).map
        (fun st => (get_input_items st none).map get_report_size) =
      .ok (some 24) ∧
    (reportDescriptor simpleMouseRdesc).map
        (fun st => parse_input_report st [0b00000101, 10, 251]) =
      .ok (.error (.valueError "Sub-data not available")) := by
  refine ⟨by rfl, by rfl⟩

/-! ## Claim C3 -/

/-- Claim C3 (code_bug): item offsets are not contiguous in the claimed sense.
On `c3Rdesc` the builder emits an ArrayItem at offset 0 with size 8 and
count 2, and then a PaddingItem at offset 8: `_append_item` advanced the
running offset by `item.size` only, not by the array's total width
`size * count = 16` that the claim (and `_get_report_size`, which reports 24
bits for these items) requires. -/
theorem c3_offsets_code_bug :
    (reportDescriptor c3Rdesc).map (fun st => get_input_items st none) =
      .ok (some [.arrItem 0 8 2 0 [⟨0x07, 0x04⟩] 0 0x65 none none,
                 .padding 8 8]) ∧
    (8 : Int) ≠ 0 + 8 * 2 ∧
    (reportDescriptor c3Rdesc).map
        (fun st => (get_input_items st none).map get_report_size) =
      .ok (some 24) := by
  refine ⟨by rfl, by decide, by rfl⟩

/-! ## Claims C5 and C6 -/

/-- Whether a computation succeeded. -/
def isOk {α : Type} : Except PyErr α → Bool
  | .ok _ => true
  | .error _ => false

/-- Claim C5 (corrected), counterexample: the single-byte descriptor `[0xA4]`
(a Global Push item with no data) is within the claim's input domain, yet
construction terminates with NotImplementedError, which is not the library's
own error kind.  The claim said such unclassified failures never escape. -/
theorem c5_counterexample :
    resultClass (reportDescriptor [0xA4]) = some .notImplementedError ∧
    PyClass.notImplementedError ≠ PyClass.invalidReportDescriptor ∧
    ([0xA4] : List Int).length ≤ 4096 ∧
    (0 : Int) ≤ 0xA4 ∧ (0xA4 : Int) ≤ 255 := by
  exact ⟨rfl, by decide, by decide, by decide, by decide⟩

/-- Claim C5 (corrected, amended): for every byte sequence of length at most
4096 whose elements are bytes, construction either succeeds or fails with one
of the exception classes the code actually raises: InvalidReportDescriptor,
NotImplementedError, ValueError or TypeError.  (The claim allowed only the
library's declared kinds; NotImplementedError, ValueError and TypeError do
escape, as the counterexample and the repository's own hypothesis test, which
tolerates NotImplementedError, show.) -/
theorem c5_amended (data : List Int) (_h1 : data.length ≤ 4096)
    (_h2 : ∀ b ∈ data, 0 ≤ b ∧ b ≤ 255) :
    isOk (reportDescriptor data) = true ∨
    ∃ e, reportDescriptor data = .error e ∧ constructionErrCls e := by
  cases hr : reportDescriptor data with
  | ok st => exact Or.inl rfl
  | error e => exact Or.inr ⟨e, rfl, reportDescriptor_err hr⟩

/-- Claim C5 witness: the amended theorem applied to the empty descriptor. -/
theorem c5_amended_witness :
    isOk (reportDescriptor []) = true ∨
    ∃ e, reportDescriptor [] = .error e ∧ constructionErrCls e :=
  c5_amended [] (by decide) (by simp)

/-- Claim C6 (corrected), counterexample: per the claim, a descriptor
consisting of a lone Global Push item (`[0xA4]`), or a lone Global Pop item
(`[0xB4]`), should be accepted with construction continuing past it (and hence
succeeding); instead construction fails fatally with NotImplementedError from
the unsupported-global-tag branch. -/
theorem c6_counterexample :
    reportDescriptor [0xA4] =
      .error (.notImplementedError "Unsupported global tag") ∧
    reportDescriptor [0xB4] =
      .error (.notImplementedError "Unsupported global tag") := by
  exact ⟨rfl, rfl⟩

/-- Claim C6 (corrected, amended): Global Push and Pop items are *not*
accepted: `_parse` has no branch for them and they hit the
unsupported-global-tag NotImplementedError, aborting construction.  The Unit /
Unit Exponent half of the claim holds as stated: they emit exactly one
HIDUnsupportedWarning and leave the parser state otherwise unchanged. -/
theorem c6_amended (st : BState) (d : Option Int) :
    parseStep st ⟨1, 0b1010, d⟩ =
      .error (.notImplementedError "Unsupported global tag") ∧
    parseStep st ⟨1, 0b1011, d⟩ =
      .error (.notImplementedError "Unsupported global tag") ∧
    parseStep st ⟨1, 0b0110, d⟩ =
      .ok { st with warnings := st.warnings ++ [.unsupportedUnit] } ∧
    parseStep st ⟨1, 0b0101, d⟩ =
      .ok { st with warnings := st.warnings ++ [.unsupportedUnit] } := by
  exact ⟨rfl, rfl, rfl, rfl⟩

/-! ## Claim C7 -/

/-- Claim C7 (corrected), counterexample: `c7Rdesc` constructs successfully,
yet its input pool contains both the numbered entry 5 and the unnumbered
entry, because a zero-sized Report ID item resets the current report id to
`None` and the mixing check does not fire (the current id 5 is truthy).  This
refutes the claimed consequence that no direction mixes numbered and
unnumbered reports. -/
theorem c7_counterexample :
    (reportDescriptor c7Rdesc).map
        (fun st => ((aget st.pool_input (some 5)).isSome,
                    (aget st.pool_input none).isSome)) =
      .ok (true, true) := by
  exact rfl

/-- Claim C7 (corrected, amended): the first half of the claim holds at the
step level: when a Global Report ID arrives while the current report id is
unset (or 0, by Python truthiness) and any direction already has pooled items,
construction fails fatally.  The claimed consequence (no pool ever holds both
numbered and unnumbered entries) is false, as the counterexample shows. -/
theorem c7_amended (st : BState) (d : Option Int)
    (h1 : st.report_id = none ∨ st.report_id = some 0)
    (h2 : st.pool_input ≠ [] ∨ st.pool_output ≠ [] ∨ st.pool_feature ≠ []) :
    parseStep st ⟨1, 0b1000, d⟩ =
      .error (.invalidReportDescriptor
        "Tried to set a report ID in a report that does not use them") := by
  have hb : pyNotTruthy st.report_id = true := by
    rcases h1 with h | h <;> simp [pyNotTruthy, h]
  have hp : poolsNonempty st = true := by
    rcases h2 with h | h | h <;>
      simp [poolsNonempty, List.isEmpty_iff, h]
  simp [parseStep, parseGlobalStep, hb, hp]

/-- Claim C7 witness: the amended theorem applied to a state with a pooled
unnumbered input item and no report id. -/
theorem c7_amended_witness :
    parseStep { pool_input := [(none, [.padding 0 1])] } ⟨1, 0b1000, some 3⟩ =
      .error (.invalidReportDescriptor
        "Tried to set a report ID in a report that does not use them") :=
  c7_amended { pool_input := [(none, [.padding 0 1])] } (some 3)
    (Or.inl rfl) (Or.inl (by simp))

/-! ## Claim C4 -/

/-- Looking up a key that is absent finds a freshly appended entry. -/
theorem aget_append_right {α β : Type} [DecidableEq α]
    {l : List (α × β)} {k : α} (h : aget l k = none) (v : β) :
    aget (l ++ [(k, v)]) k = some v := by
  induction l with
  | nil => simp [aget]
  | cons hd tl ih =>
      obtain ⟨k', v'⟩ := hd
      by_cases hk : k' = k
      · simp [aget, hk] at h
      · simp only [aget, hk, if_false, List.cons_append] at h ⊢
        simp [aget, hk, ih h]

/-- `_append_item` appends the item at the end of the pool entry of the
report id (creating the entry when absent). -/
theorem append_item_pool (offsets : List (Option Int × Int))
    (pool : List (Option Int × List HIDItem)) (rid : Option Int)
    (item : HIDItem) :
    aget (append_item offsets pool rid item).2 rid =
      some (((aget pool rid).getD []) ++ [item]) := by
  unfold append_item
  cases hp : aget pool rid with
  | some items => simp [aget_aset_self, hp]
  | none => simp [aget_append_right hp, hp]

/-- Every warning issued by `VariableItem.__init__` is the usage-type
compliance warning for its usage. -/
theorem variableItemWarnings_mem {w : HWarn} {u : Usage}
    (h : w ∈ variableItemWarnings u) : w = .complianceVariableUsageTypes u := by
  unfold variableItemWarnings at h
  split at h
  · simp at h
  · split at h <;> simp_all

/-- The variable branch loop of `_append_items`: with the logical bounds
present it succeeds, emits exactly one VariableItem per usage (appending
`usages.length` items to the pool entry of the report id), and appends
exactly the constructor warnings of each usage to the warning list. -/
theorem append_variables_spec {rid : Option Int} {size flags : Int}
    {glob : Glob} {lmin lmax : Int}
    (hmin : glob.logical_min = some lmin) (hmax : glob.logical_max = some lmax) :
    ∀ (us : List Usage) (offsets : List (Option Int × Int))
      (pool : List (Option Int × List HIDItem)) (warns : List HWarn),
      ∃ offs' pool',
        append_variables offsets pool warns rid size flags glob us =
          .ok (offs', pool', warns ++ us.flatMap variableItemWarnings) ∧
        ((aget pool' rid).getD []).length =
          ((aget pool rid).getD []).length + us.length := by
  intro us
  induction us with
  | nil =>
      intro offsets pool warns
      exact ⟨offsets, pool, by simp [append_variables], by simp⟩
  | cons u rest ih =>
      intro offsets pool warns
      have hmk : mkVariableItem ((aget offsets rid).getD 0) size flags u
          glob.logical_min glob.logical_max glob.physical_min
          glob.physical_max =
          .ok (variableItemWarnings u,
            .varItem ((aget offsets rid).getD 0) size flags u lmin lmax
              glob.physical_min glob.physical_max) := by
        rw [hmin, hmax]
        rfl
      obtain ⟨offs', pool', heq, hlen⟩ := ih
        (append_item offsets pool rid
          (.varItem ((aget offsets rid).getD 0) size flags u lmin lmax
            glob.physical_min glob.physical_max)).1
        (append_item offsets pool rid
          (.varItem ((aget offsets rid).getD 0) size flags u lmin lmax
            glob.physical_min glob.physical_max)).2
        (warns ++ variableItemWarnings u)
      refine ⟨offs', pool', ?_, ?_⟩
      · unfold append_variables
        simp only [bind, Except.bind, hmk]
        rw [heq]
        simp [List.append_assoc]
      · rw [hlen, append_item_pool]
        simp only [Option.getD_some, List.length_append, List.length_cons,
          List.length_nil]
        omega

/-- Claim C4 (corrected), counterexample: per the claim, the descriptor
`c4Rdesc` (2 declared usages, report_count = 3, variable encoding) should
produce max(3, 2) = 3 VariableItems; the builder in fact produces 2, because
the reconciliation path for too few usages executes
`usages += [] * missing_usage_count`, which appends nothing, and the loop
then iterates over the 2 usages.  The single ComplianceWarning half of the
claim does hold here. -/
theorem c4_counterexample :
    (reportDescriptor c4Rdesc).map
        (fun st => ((aget st.pool_input none).getD []).length) = .ok 2 ∧
    (2 : Nat) ≠ 3 ∧
    (reportDescriptor c4Rdesc).map (fun st => st.warnings) =
      .ok [.complianceUsageCount 3 2] := by
  exact ⟨rfl, by decide, rfl⟩

/-- Claim C4 (corrected, amended): for a Main item in variable encoding with a
non-empty usage list whose length differs from report_count, `_append_items`
emits the count-mismatch ComplianceWarning exactly once (the only other
warnings are per-usage usage-type warnings) and appends exactly
`len(usages)` VariableItems — not `max(report_count, len(usages))`: growing
`report_count` when usages exceed it does not change the loop, and
`usages += [] * missing` appends nothing when usages fall short. -/
theorem c4_amended (offsets : List (Option Int × Int))
    (pool : List (Option Int × List HIDItem)) (warns : List HWarn)
    (rid : Option Int) (report_count report_size : Int)
    (usages : List Usage) (flags : Int) (glob : Glob) (lmin lmax : Int)
    (hne : usages ≠ [])
    (hvar : ¬ Int.land flags 2 = 0)
    (hmm : (usages.length : Int) ≠ report_count)
    (hmin : glob.logical_min = some lmin)
    (hmax : glob.logical_max = some lmax) :
    ∃ offs' pool',
      append_items offsets pool warns rid report_count report_size usages
          flags glob =
        .ok (offs', pool',
          warns ++ [.complianceUsageCount report_count usages.length]
                ++ usages.flatMap variableItemWarnings) ∧
      ((aget pool' rid).getD []).length =
        ((aget pool rid).getD []).length + usages.length ∧
      ∀ w ∈ usages.flatMap variableItemWarnings,
        ∀ c g, w ≠ .complianceUsageCount c g := by
  obtain ⟨offs', pool', heq, hlen⟩ :=
    append_variables_spec hmin hmax usages offsets pool
      (warns ++ [.complianceUsageCount report_count usages.length])
  refine ⟨offs', pool', ?_, hlen, ?_⟩
  · unfold append_items
    rw [if_neg hne, if_neg hvar, if_pos hmm, heq]
  · intro w hw c g
    rw [List.mem_flatMap] at hw
    obtain ⟨u, _, hwu⟩ := hw
    rw [variableItemWarnings_mem hwu]
    simp

/-- Claim C4 witness: the amended theorem applied to 2 usages (Generic
Desktop X and Y) with report_count = 3, as in the claim. -/
theorem c4_amended_witness :
    ∃ offs' pool',
      append_items [(none, 0)] [] [] none 3 8 [⟨1, 0x30⟩, ⟨1, 0x31⟩] 2
          { logical_min := some 0, logical_max := some 1 } =
        .ok (offs', pool',
          [] ++ [.complianceUsageCount 3 ([⟨1, 0x30⟩, ⟨1, 0x31⟩] :
                  List Usage).length]
             ++ ([⟨1, 0x30⟩, ⟨1, 0x31⟩] : List Usage).flatMap
                  variableItemWarnings) ∧
      ((aget pool' none).getD []).length =
        ((aget ([] : List (Option Int × List HIDItem)) none).getD []).length +
          ([⟨1, 0x30⟩, ⟨1, 0x31⟩] : List Usage).length ∧
      ∀ w ∈ ([⟨1, 0x30⟩, ⟨1, 0x31⟩] : List Usage).flatMap
          variableItemWarnings,
        ∀ c g, w ≠ .complianceUsageCount c g :=
  c4_amended [(none, 0)] [] [] none 3 8 [⟨1, 0x30⟩, ⟨1, 0x31⟩] 2
    { logical_min := some 0, logical_max := some 1 } 0 1
    (by decide) (by decide) (by decide) rfl rfl

/-! ## Claim C8 -/

/-- The sizes of the usage ranges declared by Usage Minimum / Usage Maximum
token pairs of a token stream (the quantity the claim bounds): a Local Usage
Minimum records a pending minimum, a Local Usage Maximum with a pending
minimum `m` and data `M` declares the inclusive span `M + 1 - m`. -/
def usageRangeSpans : List RawItem → Option Int → List Int
  | [], _ => []
  | it :: rest, pending =>
      if it.typ = 2 ∧ it.tag = 0b0001 then usageRangeSpans rest it.data
      else if it.typ = 2 ∧ it.tag = 0b0010 then
        match pending, it.data with
        | some m, some M => (M + 1 - m) :: usageRangeSpans rest none
        | _, _ => usageRangeSpans rest none
      else usageRangeSpans rest pending

/-- Claim C8 (corrected), counterexample: `c8Rdesc` declares the full
0..0xFFFF usage span (65536 usages, more than any cap N < 65536 would allow),
yet construction succeeds: no ResourceLimitExceeded error exists anywhere in
the code and the range is materialized one Usage per integer. -/
theorem c8_counterexample :
    isOk (reportDescriptor c8Rdesc) = true ∧
    (iterate_raw (c8Rdesc.map Int.toNat)).map
        (fun ts => usageRangeSpans ts none) = .ok [65536] := by
  exact ⟨rfl, rfl⟩

/-- `expandUsageRange` with a usage page set always succeeds and returns one
Usage per integer of the range. -/
theorem expandUsageRange_some (p m M : Int) :
    expandUsageRange (some p) m M =
      .ok ((intRange m M).map (fun i => ⟨p, i⟩)) := by
  unfold expandUsageRange
  split
  · rename_i hz
    have : intRange m M = [] := by simp [intRange, hz]
    rw [this]
    rfl
  · rfl

/-- Claim C8 (corrected, amended): there is no expansion cap.  Whenever a
Local Usage Maximum token arrives with a pending usage minimum `m` and an
active usage page `p`, the parse step succeeds and appends exactly
`M + 1 - m` usages, one per integer of the inclusive range, however large. -/
theorem c8_amended (st : BState) (m M p : Int)
    (hmin : st.usage_min = some m) (hpage : st.usage_page = some p)
    (hle : m ≤ M) :
    parseStep st ⟨2, 0b0010, some M⟩ =
      .ok { st with
            usages := st.usages ++ (intRange m M).map (fun i => ⟨p, i⟩),
            usage_min := none } ∧
    ((intRange m M).length : Int) = M + 1 - m := by
  constructor
  · simp [parseStep, parseLocalStep, hmin, hpage, expandUsageRange_some,
      bind, Except.bind]
  · have hlen : (intRange m M).length = (M + 1 - m).toNat := by
      unfold intRange
      rw [List.length_map, List.length_range]
    rw [hlen]
    omega

/-- Claim C8 witness: the amended theorem applied to the range 0..2 on usage
page 1. -/
theorem c8_amended_witness :
    parseStep { usage_min := some 0, usage_page := some 1 } ⟨2, 0b0010, some 2⟩ =
      .ok { usage_page := some 1,
            usages := [⟨1, 0⟩, ⟨1, 1⟩, ⟨1, 2⟩] } ∧
    ((intRange 0 2).length : Int) = 2 + 1 - 0 :=
  c8_amended { usage_min := some 0, usage_page := some 1 } 0 2 1 rfl rfl
    (by decide)

/-! ## Claim C10 -/

/-- The unsigned little-endian slot values an ArrayItem extracts from a
payload at the given byte-aligned slot indices; `none` when a bit slice is out
of range. -/
def slotVals (offset size : Int) (payload : List Nat) :
    List Nat → Option (List Int)
  | [] => some []
  | i :: rest =>
      match data_bit_shift payload (offset + 8 * (i : Int)).toNat size.toNat with
      | .error _ => none
      | .ok bs =>
          (slotVals offset size payload rest).map
            (fun vs => ((leBytes bs : Int)) :: vs)

/-- The accumulated vendor entry after `k` further occurrences of slot value
`v`: on the first occurrence `VendorUsageValue(value=v)` stores `[v]` when `v`
is truthy (and `[]` for 0), and the unconditional append then adds `v`; each
later occurrence appends one more `v`. -/
def extendVendor (item : HIDItem) : Option UsageVal → Int → Nat → Option UsageVal
  | e, _, 0 => e
  | none, v, k + 1 =>
      some ⟨item, .vendorList ((if v ≠ 0 then [v] else []) ++
        List.replicate (k + 1) v)⟩
  | some w, v, k + 1 =>
      match w.val with
      | .vendorList l => some ⟨w.item, .vendorList (l ++ List.replicate (k + 1) v)⟩
      | _ => some w  -- unreachable: the slot loop fails on such an entry

theorem vendorPage_ne_keyboard {p : Int} (hp : vendorPageTest p = true) :
    p ≠ 7 := by
  unfold vendorPageTest at hp
  simp only [Bool.or_eq_true, beq_iff_eq] at hp
  rcases hp with h | h <;> omega

theorem extendVendor_none_step (item : HIDItem) (v : Int) (k : Nat) :
    extendVendor item
        (some ⟨item, .vendorList ((if v ≠ 0 then [v] else []) ++ [v])⟩) v k =
      extendVendor item none v (k + 1) := by
  cases k with
  | zero => simp [extendVendor, List.replicate]
  | succ k => simp [extendVendor, List.replicate_succ, List.append_assoc]

theorem extendVendor_some_step (item it2 : HIDItem) (l : List Int) (v : Int)
    (k : Nat) :
    extendVendor item (some ⟨it2, .vendorList (l ++ [v])⟩) v k =
      extendVendor item (some ⟨it2, .vendorList l⟩) v (k + 1) := by
  cases k with
  | zero => simp [extendVendor, List.replicate]
  | succ k => simp [extendVendor, List.replicate_succ, List.append_assoc]

/-- Fold invariant of the ArrayItem slot loop on a vendor page: the entry of
`Usage(p, v)` after the loop extends the entry before the loop by the number
of occurrences of `v` among the processed slot values. -/
theorem array_parse_slots_vendor {p offset size : Int} {usages : List Usage}
    {item : HIDItem} {payload : List Nat} (hp : vendorPageTest p = true) :
    ∀ (idxs : List Nat) (acc : List (Usage × UsageVal))
      (m : List (Usage × UsageVal)) (vs : List Int),
      array_parse_slots (some p) offset size usages item payload idxs acc =
        .ok m →
      slotVals offset size payload idxs = some vs →
      ∀ v : Int, aget m ⟨p, v⟩ =
        extendVendor item (aget acc ⟨p, v⟩) v (vs.count v) := by
  intro idxs
  induction idxs with
  | nil =>
      intro acc m vs hok hvs v
      simp only [array_parse_slots] at hok
      injection hok with hok
      subst hok
      simp only [slotVals, Option.some.injEq] at hvs
      subst hvs
      simp [extendVendor]
  | cons i rest ih =>
      intro acc m vs hok hvs v
      simp only [array_parse_slots, bind, Except.bind] at hok
      simp only [slotVals] at hvs
      cases hds : data_bit_shift payload (offset + 8 * (i : Int)).toNat
          size.toNat with
      | error e =>
          rw [hds] at hvs
          exact absurd hvs (by simp)
      | ok bs =>
          rw [hds] at hok hvs
          simp only at hok
          cases hvs2 : slotVals offset size payload rest with
          | none =>
              rw [hvs2] at hvs
              exact absurd hvs (by simp)
          | some vs2 =>
              rw [hvs2] at hvs
              simp only [Option.map_some', Option.some.injEq] at hvs
              subst hvs
              have hne7 : ((⟨p, (leBytes bs : Int)⟩ : Usage) ∈ ignoreUsages) =
                  False := by
                simp only [ignoreUsages, List.mem_singleton, Usage.mk.injEq,
                  eq_iff_iff, iff_false, not_and]
                intro hp7
                exact absurd hp7 (vendorPage_ne_keyboard hp)
              rw [if_neg (by rw [hne7]; exact id), if_pos hp] at hok
              have hcc : ∀ w : Int,
                  ((leBytes bs : Int) :: vs2).count w =
                    vs2.count w + (if (leBytes bs : Int) = w then 1 else 0) := by
                intro w
                simp [List.count_cons]
              cases hacc : aget acc ⟨p, (leBytes bs : Int)⟩ with
              | none =>
                  rw [hacc] at hok
                  have hrec := ih _ m vs2 hok hvs2 v
                  rw [hrec, hcc v]
                  by_cases hv : (leBytes bs : Int) = v
                  · subst hv
                    rw [aget_aset_self, hacc, if_pos rfl,
                      extendVendor_none_step]
                  · rw [aget_aset_ne _ _ _ _
                      (by simp [Usage.mk.injEq, hv]), if_neg hv,
                      Nat.add_zero]
              | some w =>
                  rw [hacc] at hok
                  simp only at hok
                  cases hwv : w.val with
                  | vendorList l =>
                      rw [hwv] at hok
                      have hrec := ih _ m vs2 hok hvs2 v
                      rw [hrec, hcc v]
                      by_cases hv : (leBytes bs : Int) = v
                      · subst hv
                        rw [aget_aset_self, hacc, if_pos rfl]
                        have hw : w = ⟨w.item, .vendorList l⟩ := by
                          cases w with
                          | mk wi wv => simp at hwv; rw [hwv]
                        rw [hw, extendVendor_some_step]
                      · rw [aget_aset_ne _ _ _ _
                          (by simp [Usage.mk.injEq, hv]), if_neg hv,
                          Nat.add_zero]
                  | bool b => rw [hwv] at hok; exact absurd hok (by simp)
                  | int n => rw [hwv] at hok; exact absurd hok (by simp)

/-- Claim C10 (confirmed): for an ArrayItem whose usage page is treated as a
vendor page (the code's `page in VENDOR_PAGE` test, which holds for pages
0xFF00 and 0xFFFF), a successful `parse` maps the synthesized `Usage(p, v)`
of each slot value `v` occurring `k ≥ 1` times to a raw-integer vendor list
of length `k + 1` when `v` is non-zero (the first occurrence is recorded
twice: once by the `VendorUsageValue` constructor and once by the
unconditional append) and of length exactly `k` when `v = 0`. -/
theorem c10_vendor_array (offset size count flags : Int)
    (usages : List Usage) (lmin lmax : Int) (pmin pmax : Option Int)
    (p : Int) (payload : List Nat) (m : List (Usage × UsageVal))
    (vs : List Int)
    (hpage : (usages.head?).map Usage.page = some p)
    (hvendor : vendorPageTest p = true)
    (hok : array_item_parse offset size count usages
      (.arrItem offset size count flags usages lmin lmax pmin pmax) payload =
      .ok m)
    (hvs : slotVals offset size payload (List.range count.toNat) = some vs) :
    ∀ (v : Int) (k : Nat), vs.count v = k → 1 ≤ k →
      ∃ l : List Int, aget m ⟨p, v⟩ =
          some ⟨.arrItem offset size count flags usages lmin lmax pmin pmax,
                .vendorList l⟩ ∧
        l.length = (if v = 0 then k else k + 1) := by
  intro v k hk hk1
  unfold array_item_parse at hok
  rw [hpage] at hok
  have hinv := array_parse_slots_vendor hvendor (List.range count.toNat) []
    m vs hok hvs v
  rw [hk] at hinv
  cases k with
  | zero => omega
  | succ k =>
      refine ⟨(if v ≠ 0 then [v] else []) ++ List.replicate (k + 1) v, ?_, ?_⟩
      · rw [hinv]
        simp [aget, extendVendor]
      · by_cases hv : v = 0 <;> simp [hv]

/-- Claim C10 witness: a 3-slot vendor-page array (page 0xFF00, size 8) on
payload `[7, 7, 0]`: the value 7 occurs twice and gets the list `[7, 7, 7]`
of length 3; the value 0 occurs once and gets `[0]` of length 1. -/
theorem c10_vendor_array_witness :
    (∃ l : List Int,
      aget ([(⟨0xFF00, 7⟩,
          ⟨.arrItem 0 8 3 0 [⟨0xFF00, 1⟩] 0 255 none none,
           .vendorList [7, 7, 7]⟩),
        (⟨0xFF00, 0⟩,
          ⟨.arrItem 0 8 3 0 [⟨0xFF00, 1⟩] 0 255 none none,
           .vendorList [0]⟩)] : List (Usage × UsageVal)) ⟨0xFF00, 7⟩ =
        some ⟨.arrItem 0 8 3 0 [⟨0xFF00, 1⟩] 0 255 none none,
              .vendorList l⟩ ∧
      l.length = (if (7 : Int) = 0 then 2 else 2 + 1)) ∧
    (∃ l : List Int,
      aget ([(⟨0xFF00, 7⟩,
          ⟨.arrItem 0 8 3 0 [⟨0xFF00, 1⟩] 0 255 none none,
           .vendorList [7, 7, 7]⟩),
        (⟨0xFF00, 0⟩,
          ⟨.arrItem 0 8 3 0 [⟨0xFF00, 1⟩] 0 255 none none,
           .vendorList [0]⟩)] : List (Usage × UsageVal)) ⟨0xFF00, 0⟩ =
        some ⟨.arrItem 0 8 3 0 [⟨0xFF00, 1⟩] 0 255 none none,
              .vendorList l⟩ ∧
      l.length = (if (0 : Int) = 0 then 1 else 1 + 1)) :=
  ⟨c10_vendor_array 0 8 3 0 [⟨0xFF00, 1⟩] 0 255 none none 0xFF00 [7, 7, 0]
      _ [7, 7, 0] rfl rfl rfl rfl 7 2 rfl (by decide),
   c10_vendor_array 0 8 3 0 [⟨0xFF00, 1⟩] 0 255 none none 0xFF00 [7, 7, 0]
      _ [7, 7, 0] rfl rfl rfl rfl 0 1 rfl (by decide)⟩

/-! ## Claim C9 -/

section AssocLemmas

variable {α β : Type} [DecidableEq α]

/-- First-match preference between two optional values (used to state that a
later writer overrides an earlier one: the left argument is the later). -/
def ofirst : Option β → Option β → Option β
  | some v, _ => some v
  | none, y => y

/-- The keys of an association list are pairwise distinct. -/
def keysNodup (l : List (α × β)) : Prop := (l.map Prod.fst).Nodup

theorem aget_some_mem {l : List (α × β)} {k : α} {v : β}
    (h : aget l k = some v) : (k, v) ∈ l := by
  induction l with
  | nil => simp [aget] at h
  | cons hd tl ih =>
      obtain ⟨k', v'⟩ := hd
      by_cases hk : k' = k
      · subst hk
        simp [aget] at h
        simp [h]
      · simp only [aget, hk, if_false] at h
        exact List.mem_cons_of_mem _ (ih h)

theorem aget_eq_none {k : α} :
    ∀ {l : List (α × β)}, k ∉ l.map Prod.fst → aget l k = none := by
  intro l
  induction l with
  | nil => intro _; rfl
  | cons hd tl ih =>
      intro h
      obtain ⟨k', v'⟩ := hd
      rw [List.map_cons, List.mem_cons] at h
      push_neg at h
      simp only [aget]
      rw [if_neg (Ne.symm h.1)]
      exact ih h.2

theorem mem_keys_of_aget_isSome {l : List (α × β)} {k : α}
    (h : (aget l k).isSome) : k ∈ l.map Prod.fst := by
  by_contra hmem
  rw [aget_eq_none hmem] at h
  simp at h

theorem mem_keys_aset {k k' : α} {v : β} :
    ∀ {l : List (α × β)}, k' ∈ (aset l k v).map Prod.fst →
      k' ∈ l.map Prod.fst ∨ k' = k := by
  intro l
  induction l with
  | nil => intro h; simp [aset] at h; exact Or.inr h
  | cons hd tl ih =>
      intro h
      obtain ⟨k'', v''⟩ := hd
      by_cases hk : k'' = k
      · simp only [aset] at h
        rw [if_pos hk, List.map_cons, List.mem_cons] at h
        rw [List.map_cons, List.mem_cons]
        rcases h with h | h
        · exact Or.inl (Or.inl h)
        · exact Or.inl (Or.inr h)
      · simp only [aset] at h
        rw [if_neg hk, List.map_cons, List.mem_cons] at h
        rw [List.map_cons, List.mem_cons]
        rcases h with h | h
        · exact Or.inl (Or.inl h)
        · rcases ih h with h' | h'
          · exact Or.inl (Or.inr h')
          · exact Or.inr h'

theorem keysNodup_aset {k : α} {v : β} :
    ∀ {l : List (α × β)}, keysNodup l → keysNodup (aset l k v) := by
  intro l
  induction l with
  | nil => intro _; simp [keysNodup, aset]
  | cons hd tl ih =>
      intro h
      obtain ⟨k', v'⟩ := hd
      unfold keysNodup at h ⊢
      rw [List.map_cons, List.nodup_cons] at h
      by_cases hk : k' = k
      · simp only [aset]
        rw [if_pos hk, List.map_cons, List.nodup_cons]
        subst hk
        exact h
      · simp only [aset]
        rw [if_neg hk, List.map_cons, List.nodup_cons]
        refine ⟨?_, ih h.2⟩
        intro hmem
        rcases mem_keys_aset hmem with h' | h'
        · exact h.1 h'
        · exact hk h'

theorem aget_aupdate {mc : List (α × β)} :
    ∀ {parsed : List (α × β)} {u : α}, keysNodup mc →
      aget (aupdate parsed mc) u = ofirst (aget mc u) (aget parsed u) := by
  induction mc with
  | nil => intro parsed u _; simp [aupdate, aget, ofirst]
  | cons hd tl ih =>
      intro parsed u hnd
      obtain ⟨k, v⟩ := hd
      unfold keysNodup at hnd
      simp only [List.map_cons, List.nodup_cons] at hnd
      have step : aupdate parsed ((k, v) :: tl) = aupdate (aset parsed k v) tl :=
        rfl
      rw [step, ih hnd.2]
      by_cases hk : k = u
      · subst hk
        have htl : aget tl k = none := aget_eq_none hnd.1
        rw [htl]
        simp [aget, ofirst, aget_aset_self]
      · simp only [aget, hk, if_false]
        cases htl : aget tl u with
        | some w => simp [ofirst]
        | none => simp [ofirst, aget_aset_ne _ _ _ _ hk]

theorem aget_aset_isSome_mono {l : List (α × β)} {k k' : α} {v : β}
    (h : (aget l k').isSome) : (aget (aset l k v) k').isSome := by
  by_cases hk : k = k'
  · subst hk; rw [aget_aset_self]; rfl
  · rw [aget_aset_ne _ _ _ _ hk]; exact h

theorem aget_aupdate_isSome_mono {mc : List (α × β)} :
    ∀ {parsed : List (α × β)} {u : α}, (aget parsed u).isSome →
      (aget (aupdate parsed mc) u).isSome := by
  induction mc with
  | nil => intro parsed u h; exact h
  | cons hd tl ih =>
      intro parsed u h
      exact ih (aget_aset_isSome_mono h)

end AssocLemmas

/-- The usage-type registry of this repository only ever returns the
singleton SELECTOR or DYNAMIC_VALUE lists (the Keyboard/Keypad table). -/
theorem usageTypes_cases {page usage : Int} {ts : List UsageType}
    (h : usageTypes page usage = some ts) :
    ts = [.SELECTOR] ∨ ts = [.DYNAMIC_VALUE] := by
  unfold usageTypes kkTypes at h
  repeat' split at h
  all_goals simp_all

/-- `VariableItem.parse` never succeeds against this repository's registry:
for a usage without registered types the lookup raises, and for a registered
type list (SELECTOR or DYNAMIC_VALUE, never LINEAR_CONTROL) the evaluation
of `hid_parser.data.UsageTypesData` raises AttributeError. -/
theorem variable_item_parse_ne_ok {o s f : Int} {u : Usage}
    {lmin lmax : Int} {item : HIDItem} {payload : List Nat} {v : UsageVal} :
    variable_item_parse o s f u lmin lmax item payload ≠ .ok v := by
  intro h
  unfold variable_item_parse at h
  simp only [bind, Except.bind] at h
  cases hds : data_bit_shift payload o.toNat s.toNat with
  | error e => rw [hds] at h; exact absurd h (by simp)
  | ok bs =>
      rw [hds] at h
      simp only at h
      cases hut : usageTypes u.page u.usage with
      | none => rw [hut] at h; exact absurd h (by simp)
      | some ts =>
          rw [hut] at h
          rcases usageTypes_cases hut with hts | hts <;>
            · subst hts
              simp at h

/-- The contribution of a VariableItem to a decoded report is always a
failure (`VariableItem.parse` raises). -/
theorem itemContrib_var_ne_ok {o s f : Int} {u : Usage} {lmin lmax : Int}
    {pmin pmax : Option Int} {payload : List Nat}
    {mc : List (Usage × UsageVal)} :
    itemContrib (.varItem o s f u lmin lmax pmin pmax) payload ≠ .ok mc := by
  intro h
  unfold itemContrib at h
  simp only [bind, Except.bind] at h
  cases hv : variable_item_parse o s f u lmin lmax
      (.varItem o s f u lmin lmax pmin pmax) payload with
  | error e => rw [hv] at h; exact absurd h (by simp)
  | ok w => exact variable_item_parse_ne_ok hv

/-- The ArrayItem slot loop preserves distinctness of the result keys. -/
theorem array_parse_slots_keysNodup {page0 : Option Int} {offset size : Int}
    {usages : List Usage} {item : HIDItem} {payload : List Nat} :
    ∀ {idxs : List Nat} {acc m : List (Usage × UsageVal)}, keysNodup acc →
      array_parse_slots page0 offset size usages item payload idxs acc =
        .ok m →
      keysNodup m := by
  intro idxs
  induction idxs with
  | nil =>
      intro acc m hnd hok
      simp only [array_parse_slots] at hok
      injection hok with hok
      subst hok
      exact hnd
  | cons i rest ih =>
      intro acc m hnd hok
      simp only [array_parse_slots, bind, Except.bind] at hok
      cases hds : data_bit_shift payload (offset + 8 * (i : Int)).toNat
          size.toNat with
      | error e => rw [hds] at hok; exact absurd hok (by simp)
      | ok bs =>
          rw [hds] at hok
          simp only at hok
          cases page0 with
          | none => exact Except.noConfusion hok
          | some p =>
              simp only at hok
              repeat' split at hok
              all_goals
                first
                | exact Except.noConfusion hok
                | (refine ih ?_ hok
                   first
                     | exact hnd
                     | exact keysNodup_aset hnd)

/-- Every successful item contribution has pairwise distinct keys. -/
theorem itemContrib_keysNodup {item : HIDItem} {payload : List Nat}
    {mc : List (Usage × UsageVal)} (h : itemContrib item payload = .ok mc) :
    keysNodup mc := by
  cases item with
  | padding o s =>
      simp only [itemContrib] at h
      injection h with h
      subst h
      simp [keysNodup]
  | varItem o s f u lmin lmax pmin pmax => exact absurd h itemContrib_var_ne_ok
  | arrItem o s c fl us lmin lmax pmin pmax =>
      simp only [itemContrib, array_item_parse] at h
      exact array_parse_slots_keysNodup (by simp [keysNodup]) h

/-- Whether decoding this one item against the payload writes the given
usage key. -/
def writes_usage (item : HIDItem) (payload : List Nat) (u : Usage) : Bool :=
  match itemContrib item payload with
  | .ok mc => (aget mc u).isSome
  | .error _ => false

/-- The value the last item (in declaration order) that writes `u`
contributes for `u`. -/
def lastWrite (payload : List Nat) (u : Usage) : List HIDItem → Option UsageVal
  | [] => none
  | item :: rest =>
      match lastWrite payload u rest with
      | some v => some v
      | none =>
          match itemContrib item payload with
          | .ok mc => aget mc u
          | .error _ => none

/-- Fold invariant of `_parse_report_items`: (value) the result maps every
usage to the value of its last writer, falling back to the accumulator;
(warnings) the warning list only grows; (acc-warn) a usage already present in
the accumulator that is written by any remaining item gets an overriding-usage
warning; (cross-warn) a usage written by two remaining items gets an
overriding-usage warning. -/
theorem parseReportItemsAux_spec :
    ∀ (items : List HIDItem) (payload : List Nat)
      (parsed : List (Usage × UsageVal)) (warns : List HWarn)
      (m : List (Usage × UsageVal)) (ws : List HWarn),
      parse_report_items.parseReportItemsAux items payload parsed warns =
        .ok (m, ws) →
      (∀ u, aget m u = ofirst (lastWrite payload u items) (aget parsed u)) ∧
      (∃ tail, ws = warns ++ tail) ∧
      (∀ u, (aget parsed u).isSome = true →
        ∀ b ib, items.get? b = some ib → writes_usage ib payload u = true →
          HWarn.reportOverridingUsage u ∈ ws) ∧
      (∀ u a b ia ib, a < b → items.get? a = some ia →
        items.get? b = some ib → writes_usage ia payload u = true →
        writes_usage ib payload u = true →
        HWarn.reportOverridingUsage u ∈ ws) := by
  intro items
  induction items with
  | nil =>
      intro payload parsed warns m ws hok
      simp only [parse_report_items.parseReportItemsAux, Except.ok.injEq,
        Prod.mk.injEq] at hok
      obtain ⟨h1, h2⟩ := hok
      subst h1
      subst h2
      refine ⟨fun u => by simp [lastWrite, ofirst], ⟨[], by simp⟩, ?_, ?_⟩
      · intro u _ b ib hb
        simp at hb
      · intro u a b ia ib _ ha
        simp at ha
  | cons item rest ih =>
      intro payload parsed warns m ws hok
      cases item with
      | padding o s =>
          simp only [parse_report_items.parseReportItemsAux] at hok
          obtain ⟨hval, ⟨tail, htail⟩, hacc, hcross⟩ :=
            ih payload parsed warns m ws hok
          refine ⟨?_, ⟨tail, htail⟩, ?_, ?_⟩
          · intro u
            have hlw : lastWrite payload u (HIDItem.padding o s :: rest) =
                lastWrite payload u rest := by
              cases hlwr : lastWrite payload u rest <;>
                simp [lastWrite, hlwr, itemContrib, aget]
            rw [hlw]
            exact hval u
          · intro u hsome b ib hb hwrite
            cases b with
            | zero =>
                simp only [List.get?_cons_zero, Option.some.injEq] at hb
                subst hb
                simp [writes_usage, itemContrib, aget] at hwrite
            | succ b =>
                simp only [List.get?_cons_succ] at hb
                exact hacc u hsome b ib hb hwrite
          · intro u a b ia ib hab ha hb hwa hwb
            cases a with
            | zero =>
                simp only [List.get?_cons_zero, Option.some.injEq] at ha
                subst ha
                simp [writes_usage, itemContrib, aget] at hwa
            | succ a =>
                cases b with
                | zero => omega
                | succ b =>
                    simp only [List.get?_cons_succ] at ha hb
                    exact hcross u a b ia ib (by omega) ha hb hwa hwb
      | varItem o s f u0 lmin lmax pmin pmax =>
          exfalso
          simp only [parse_report_items.parseReportItemsAux, bind,
            Except.bind] at hok
          cases hv : variable_item_parse o s f u0 lmin lmax
              (.varItem o s f u0 lmin lmax pmin pmax) payload with
          | ok w => exact variable_item_parse_ne_ok hv
          | error e => rw [hv] at hok; exact Except.noConfusion hok
      | arrItem o s c fl us lmin lmax pmin pmax =>
          simp only [parse_report_items.parseReportItemsAux, bind,
            Except.bind] at hok
          cases hmc : array_item_parse o s c us
              (.arrItem o s c fl us lmin lmax pmin pmax) payload with
          | error e => rw [hmc] at hok; exact Except.noConfusion hok
          | ok mc =>
              rw [hmc] at hok
              simp only at hok
              obtain ⟨hval, ⟨tail, htail⟩, hacc, hcross⟩ :=
                ih payload _ _ m ws hok
              have hcontrib : itemContrib
                  (.arrItem o s c fl us lmin lmax pmin pmax) payload =
                  .ok mc := hmc
              have hnd : keysNodup mc := itemContrib_keysNodup hcontrib
              have hupd : ∀ u, aget (aupdate parsed mc) u =
                  ofirst (aget mc u) (aget parsed u) :=
                fun u => aget_aupdate hnd
              have hov : ∀ u, (aget mc u).isSome = true →
                  (aget parsed u).isSome = true →
                  HWarn.reportOverridingUsage u ∈
                    (mc.filter (fun kv => (aget parsed kv.1).isSome)).map
                      (fun kv => HWarn.reportOverridingUsage kv.1) := by
                intro u h1 h2
                obtain ⟨v0, hv0⟩ := Option.isSome_iff_exists.mp h1
                refine List.mem_map.mpr ⟨(u, v0), ?_, rfl⟩
                exact List.mem_filter.mpr ⟨aget_some_mem hv0, by simpa using h2⟩
              refine ⟨?_, ?_, ?_, ?_⟩
              · intro u
                rw [hval u, hupd u]
                cases hlwr : lastWrite payload u rest with
                | some v => simp [lastWrite, hlwr, ofirst]
                | none =>
                    simp only [lastWrite, hlwr, hcontrib]
                    cases hmcu : aget mc u <;> simp [ofirst]
              · exact ⟨(mc.filter (fun kv => (aget parsed kv.1).isSome)).map
                    (fun kv => HWarn.reportOverridingUsage kv.1) ++ tail,
                  by rw [htail, List.append_assoc]⟩
              · intro u hsome b ib hb hwrite
                cases b with
                | zero =>
                    simp only [List.get?_cons_zero, Option.some.injEq] at hb
                    subst hb
                    have hmcu : (aget mc u).isSome = true := by
                      simpa [writes_usage, hcontrib] using hwrite
                    have hmem := hov u hmcu hsome
                    rw [htail]
                    exact List.mem_append_left _ (List.mem_append_right _ hmem)
                | succ b =>
                    simp only [List.get?_cons_succ] at hb
                    refine hacc u ?_ b ib hb hwrite
                    exact aget_aupdate_isSome_mono hsome
              · intro u a b ia ib hab ha hb hwa hwb
                cases a with
                | zero =>
                    simp only [List.get?_cons_zero, Option.some.injEq] at ha
                    subst ha
                    have hmcu : (aget mc u).isSome = true := by
                      simpa [writes_usage, hcontrib] using hwa
                    cases b with
                    | zero => omega
                    | succ b =>
                        simp only [List.get?_cons_succ] at hb
                        refine hacc u ?_ b ib hb hwb
                        rw [hupd u]
                        obtain ⟨v0, hv0⟩ := Option.isSome_iff_exists.mp hmcu
                        rw [hv0]
                        rfl
                | succ a =>
                    cases b with
                    | zero => omega
                    | succ b =>
                        simp only [List.get?_cons_succ] at ha hb
                        exact hcross u a b ia ib (by omega) ha hb hwa hwb

/-- Claim C9 (confirmed): whenever `_parse_report_items` returns a mapping and
the same Usage key is written by two different items of the report, a
non-fatal overriding-usage HIDReportWarning is issued, and every usage maps to
the value contributed by its last writer in declaration order.  (With this
repository's registry `VariableItem.parse` always raises, so a successful
decode can only contain Padding and Array items; the enumerated VariableItem
duplicate cases are therefore vacuous — any item list containing a
VariableItem makes the decode fail instead of returning a mapping.) -/
theorem c9_duplicate_usage (items : List HIDItem) (payload : List Nat)
    (m : List (Usage × UsageVal)) (ws : List HWarn)
    (hok : parse_report_items items payload = .ok (m, ws)) :
    (∀ u, aget m u = lastWrite payload u items) ∧
    (∀ u a b ia ib, a < b → items.get? a = some ia →
      items.get? b = some ib → writes_usage ia payload u = true →
      writes_usage ib payload u = true →
      HWarn.reportOverridingUsage u ∈ ws) := by
  obtain ⟨hval, _, _, hcross⟩ :=
    parseReportItemsAux_spec items payload [] [] m ws hok
  refine ⟨?_, hcross⟩
  intro u
  rw [hval u]
  cases hlw : lastWrite payload u items <;> simp [ofirst, aget]

/-- Claim C9 witness: two Keyboard/Keypad ArrayItems whose slots both produce
usage (7, 4): decoding payload `[4, 4]` yields one overriding-usage warning
and the mapping holds the second item's value. -/
theorem c9_duplicate_usage_witness :
    (aget [((⟨7, 4⟩ : Usage),
        (⟨.arrItem 8 8 1 4 [⟨7, 4⟩] 0 101 none none, .bool true⟩ : UsageVal))]
      (⟨7, 4⟩ : Usage) =
      lastWrite [4, 4] ⟨7, 4⟩
        [.arrItem 0 8 1 0 [⟨7, 4⟩] 0 101 none none,
         .arrItem 8 8 1 4 [⟨7, 4⟩] 0 101 none none]) ∧
    HWarn.reportOverridingUsage ⟨7, 4⟩ ∈
      [HWarn.reportOverridingUsage ⟨7, 4⟩] := by
  have h := c9_duplicate_usage
    [.arrItem 0 8 1 0 [⟨7, 4⟩] 0 101 none none,
     .arrItem 8 8 1 4 [⟨7, 4⟩] 0 101 none none] [4, 4]
    [((⟨7, 4⟩ : Usage),
      (⟨.arrItem 8 8 1 4 [⟨7, 4⟩] 0 101 none none, .bool true⟩ : UsageVal))]
    [HWarn.reportOverridingUsage ⟨7, 4⟩] rfl
  exact ⟨h.1 ⟨7, 4⟩,
    h.2 ⟨7, 4⟩ 0 1 (.arrItem 0 8 1 0 [⟨7, 4⟩] 0 101 none none)
      (.arrItem 8 8 1 4 [⟨7, 4⟩] 0 101 none none)
      (by decide) rfl rfl (by decide) (by decide)⟩

end HidParser
